import Mathlib

/-!
Verification of the response-normalization layer and the optimistic
cart-mutation protocol of the tonas-front storefront client.

The development shallowly embeds the JSON-ish values flowing through the
app (`JSValue`), the loose JavaScript coercions the code relies on
(`Number`, `String`, truthiness, `??`, `||`), the helpers of
`src/services/normalizers.ts` and `src/i18n/locale.ts`, the image-URL
resolution of `src/services/api.ts`, and the cart handlers of
`src/screens/CartScreen.tsx` plus the coupon endpoint of
`src/services/endpoints.ts`.

JavaScript numbers are modelled as exact rationals extended with the
non-finite values NaN and ±Infinity; binary floating point rounding and
the exponential/shortest-round-trip aspects of JS number printing are
not modelled, so decimal arithmetic here is exact where the JS engine
would approximate.
-/

namespace Tonas

/-- A JavaScript number: NaN, plus or minus Infinity, or a finite value
(modelled as an exact rational). -/
inductive JSNum where
  | nan
  | inf
  | negInf
  | val (q : ℚ)
deriving DecidableEq, Repr

/-- A JavaScript/JSON value as handled by the normalization layer:
`undefined`, `null`, booleans, numbers, strings, arrays and plain
objects (ordered field lists, first binding wins on lookup). -/
inductive JSValue where
  | undef
  | null
  | bool (b : Bool)
  | num (n : JSNum)
  | str (s : String)
  | arr (elems : List JSValue)
  | obj (fields : List (String × JSValue))
deriving Repr

namespace JSValue

/-- Property read `v[key]`: the first binding of `key` on an object,
`undefined` otherwise.  All property reads performed by the embedded
code are either optional-chained (`v?.k`) or guarded, so the
null/undefined receiver TypeError cannot occur at those sites and a
total lookup is faithful. -/
def jsGet (v : JSValue) (key : String) : JSValue :=
  match v with
  | .obj fields =>
    match fields.find? (fun p => p.1 = key) with
    | some p => p.2
    | none => .undef
  | _ => (.undef)

/-- True exactly on `null` and `undefined` (the values skipped by the
JS nullish-coalescing operator). -/
def isNullish : JSValue → Bool
  | .null => true
  | .undef => true
  | _ => false

/-- The JS nullish-coalescing operator `a ?? b`. -/
def jsNullish (a b : JSValue) : JSValue :=
  if isNullish a then b else a

/-- JS truthiness: `undefined`, `null`, `false`, `0`, `NaN` and the
empty string are falsy; every other value (including empty arrays and
objects) is truthy. -/
def jsTruthy : JSValue → Bool
  | .undef => false
  | .null => false
  | .bool b => b
  | .num .nan => false
  | .num (.val q) => q != 0
  | .num _ => true
  | .str s => s != ""
  | .arr _ => true
  | .obj _ => true

/-- The JS logical-or operator `a || b` (value-returning). -/
def jsOr (a b : JSValue) : JSValue :=
  if jsTruthy a then a else b

end JSValue

open JSValue

/-- Lean's `Char.toLower` is ASCII-only; the only strings the embedded
code compares after lowercasing are pure-ASCII keywords, for which this
agrees with JS `String.prototype.toLowerCase`. -/
def asciiLowercase (s : String) : String :=
  s.map Char.toLower

/-- JS `String.prototype.trim`, restricted to the ASCII whitespace
recognised by `Char.isWhitespace`; the additional Unicode space
characters JS would also strip are not modelled. -/
def jsTrim (s : String) : String :=
  s.trim

/-- Digit list to natural number, most significant first. -/
def digitsToNat (ds : List Char) : Nat :=
  ds.foldl (fun acc c => acc * 10 + (c.toNat - 48)) 0

/-- Value of a hex digit. -/
def hexDigitVal (c : Char) : Nat :=
  if c.isDigit then c.toNat - 48
  else if 'a' ≤ c ∧ c ≤ 'f' then c.toNat - 87
  else c.toNat - 55

/-- Hex digit list to natural number. -/
def hexDigitsToNat (ds : List Char) : Nat :=
  ds.foldl (fun acc c => acc * 16 + hexDigitVal c) 0

/-- Is the character an ASCII hex digit. -/
def isHexDigit (c : Char) : Bool :=
  c.isDigit ∨ ('a' ≤ c ∧ c ≤ 'f') ∨ ('A' ≤ c ∧ c ≤ 'F')

/-- Parses an unsigned decimal literal prefix (`digits`, `digits.digits`,
`.digits`, `digits.`) and returns its value with the unconsumed
remainder; `none` when no digit is present before an optional dot. -/
def parseUnsignedDecimal (cs : List Char) : Option (ℚ × List Char) :=
  let ip := cs.takeWhile Char.isDigit
  let r1 := cs.dropWhile Char.isDigit
  match r1 with
  | '.' :: r2 =>
    let fp := r2.takeWhile Char.isDigit
    let r3 := r2.dropWhile Char.isDigit
    if ip.isEmpty ∧ fp.isEmpty then none
    else some ((digitsToNat ip : ℚ) + (digitsToNat fp : ℚ) / (10 : ℚ) ^ fp.length, r3)
  | _ =>
    if ip.isEmpty then none
    else some ((digitsToNat ip : ℚ), r1)

/-- Applies an optional exponent suffix `[eE][+-]?digits` to a parsed
mantissa; an incomplete exponent (no digits) is not consumed, matching
the longest-valid-prefix behaviour of JS numeric parsing. -/
def applyExponent (q : ℚ) (cs : List Char) : ℚ × List Char :=
  match cs with
  | e :: rest =>
    if e = 'e' ∨ e = 'E' then
      let signNeg := match rest with | '-' :: _ => true | _ => false
      let rest2 := match rest with | '+' :: r => r | '-' :: r => r | r => r
      let ds := rest2.takeWhile Char.isDigit
      let rest3 := rest2.dropWhile Char.isDigit
      if ds.isEmpty then (q, cs)
      else if signNeg then (q / (10 : ℚ) ^ digitsToNat ds, rest3)
      else (q * (10 : ℚ) ^ digitsToNat ds, rest3)
    else (q, cs)
  | [] => (q, cs)

/-- Parses a signed decimal-with-exponent or `Infinity` prefix; returns
the value (finite or infinite) with the unconsumed remainder. -/
def parseSignedFloat (cs : List Char) : Option (JSNum × List Char) :=
  let signNeg := match cs with | '-' :: _ => true | _ => false
  let body := match cs with | '+' :: r => r | '-' :: r => r | r => r
  if ("Infinity".data).isPrefixOf body then
    some (if signNeg then .negInf else .inf, body.drop 8)
  else
    match parseUnsignedDecimal body with
    | some (q, rest) =>
      let (q2, rest2) := applyExponent q rest
      some (.val (if signNeg then -q2 else q2), rest2)
    | none => none

/-- JS `Number(string)` on an already-trimmed string: empty → 0, hex
literals, `Infinity` forms, or a fully-consumed decimal literal;
anything else → NaN.  The rare binary/octal `0b`/`0o` literal forms are
not modelled. -/
def strToNumber (s : String) : JSNum :=
  let t := (jsTrim s).data
  if t.isEmpty then .val 0
  else
    match t with
    | '0' :: x :: rest =>
      if (x = 'x' ∨ x = 'X') ∧ ¬ rest.isEmpty ∧ rest.all isHexDigit then
        .val (hexDigitsToNat rest : ℚ)
      else
        match parseSignedFloat t with
        | some (n, []) => n
        | _ => .nan
    | _ =>
      match parseSignedFloat t with
      | some (n, []) => n
      | _ => .nan

/-- JS `Number.parseFloat`: strips leading whitespace then takes the
longest valid signed decimal/`Infinity` prefix; NaN when there is
none. -/
def parseFloatJS (s : String) : JSNum :=
  let t := s.data.dropWhile Char.isWhitespace
  match parseSignedFloat t with
  | some (n, _) => n
  | none => .nan

/-- Left-pads a string with zeros up to the given length. -/
def padZerosTo (s : String) (n : Nat) : String :=
  if s.length ≥ n then s
  else (List.replicate (n - s.length) '0').asString ++ s

/-- Exact decimal representation of a rational whose denominator divides
a power of ten (the only kind produced by the embedded arithmetic);
for other denominators a `num/den` placeholder is returned — the JS
engine would print a binary-float approximation there, which this exact
model cannot faithfully reproduce.  The exponential notation JS uses
for very large/small magnitudes is likewise not modelled. -/
def ratDecimalString (q : ℚ) : String :=
  if q = 0 then "0"
  else
    let sign := if q < 0 then "-" else ""
    let n := q.num.natAbs
    let d := q.den
    match (List.range 41).find? (fun k => 10 ^ k % d = 0) with
    | some k =>
      let m := n * 10 ^ k / d
      if k = 0 then sign ++ toString m
      else
        let s := padZerosTo (toString m) (k + 1)
        sign ++ s.take (s.length - k) ++ "." ++ s.drop (s.length - k)
    | none => sign ++ toString n ++ "/" ++ toString d

/-- JS `String(number)`. -/
def numToString : JSNum → String
  | .nan => "NaN"
  | .inf => "Infinity"
  | .negInf => "-Infinity"
  | .val q => ratDecimalString q

/-- JS `Number.prototype.toFixed(2)`: rounds to the nearest hundredth,
ties away from zero toward the larger candidate, exactly as ECMA-262
specifies for the exact value ("pick the larger n"). -/
def toFixed2 (n : JSNum) : String :=
  match n with
  | .nan => "NaN"
  | .inf => "Infinity"
  | .negInf => "-Infinity"
  | .val q =>
    let m : ℤ := ⌊q * 100 + 1 / 2⌋
    let sign := if m < 0 then "-" else ""
    let s := padZerosTo (toString m.natAbs) 3
    sign ++ s.take (s.length - 2) ++ "." ++ s.drop (s.length - 2)

/-- String conversion of a non-array JS value (arrays are handled by
`jsArrToString`, which joins element strings; an object inside an array
stringifies to `[object Object]` just as at top level). -/
def jsScalarToString : JSValue → String
  | .str s => s
  | .undef => "undefined"
  | .null => "null"
  | .bool b => cond b "true" "false"
  | .num n => numToString n
  | .arr _ => ""
  | .obj _ => "[object Object]"

/-- JS `Array.prototype.toString` (comma join, null/undefined elements
become empty, nested arrays join recursively). -/
def jsArrToString (elems : List JSValue) : String :=
  String.intercalate "," (elems.attach.map (fun p =>
    match p with
    | ⟨.arr ys, _⟩ => jsArrToString ys
    | ⟨.null, _⟩ => ""
    | ⟨.undef, _⟩ => ""
    | ⟨v, _⟩ => jsScalarToString v))
termination_by sizeOf elems
decreasing_by
  have h1 : sizeOf (JSValue.arr ys) < sizeOf elems := List.sizeOf_lt_of_mem (by assumption)
  simp at h1
  omega

/-- JS `String(value)` for every value shape the normalizers can meet
(symbols, which would throw, cannot occur in JSON payloads and are not
part of `JSValue`). -/
def jsToString : JSValue → String
  | .arr elems => jsArrToString elems
  | v => jsScalarToString v

/-- JS `Number(value)` coercion. -/
def jsToNumber : JSValue → JSNum
  | .num n => n
  | .undef => .nan
  | .null => .val 0
  | .bool b => .val (if b then 1 else 0)
  | .str s => strToNumber s
  | .arr elems => strToNumber (jsToString (.arr elems))
  | .obj _ => .nan

/-- Embeds `safeString` (normalizers.ts:17): null/undefined yield the
fallback, everything else is stringified. -/
def safeString (value : JSValue) (fallback : String := "") : String :=
  match value with
  | .null => fallback
  | .undef => fallback
  | v => jsToString v

/-- Embeds `safeNumber` (normalizers.ts:22): `Number(value)` when the
result is finite, the fallback otherwise. -/
def safeNumber (value : JSValue) (fallback : ℚ := 0) : ℚ :=
  match jsToNumber value with
  | .val q => q
  | _ => fallback

/-- Embeds `toBool` (normalizers.ts:31).  The source checks, in order:
the two boolean literals, strict equality with `1`/`'1'`/`0`/`'0'`,
the trimmed lowercased string keyword sets, null/undefined, and finally
generic truthiness; strict equality is type-discriminating, so the
per-constructor form below performs the identical case analysis.  The
`label` argument only feeds a `console.warn` diagnostic and has no
effect on the result. -/
def toBool (value : JSValue) (label : String := "") : Bool :=
  match value with
  | .bool b => b
  | .num (.val q) =>
    if q = 1 then true
    else if q = 0 then false
    else jsTruthy (.num (.val q))
  | .str s =>
    if s = "1" then true
    else if s = "0" then false
    else
      let normalized := asciiLowercase (jsTrim s)
      if normalized = "true" ∨ normalized = "yes" ∨ normalized = "on" then true
      else if normalized = "false" ∨ normalized = "no" ∨ normalized = "off" ∨ normalized = "" then false
      else false
  | .null => false
  | .undef => false
  | v => jsTruthy v

/-- Embeds `unwrapCollection` (normalizers.ts:59): an array is itself,
a truthy value with an array-valued `data` field yields that array,
anything else the empty list. -/
def unwrapCollection (value : JSValue) : List JSValue :=
  match value with
  | .arr elems => elems
  | _ =>
    if jsTruthy value then
      match jsGet value "data" with
      | .arr elems => elems
      | _ => []
    else []

/-- Embeds `readLocalizedValue` (src/i18n/locale.ts:11): falsy values
yield `undefined`; strings are returned as-is; objects (arrays have
`typeof 'object'` too and behave identically here) yield their truthy
current-locale entry, else their truthy `en` entry, else `undefined`. -/
def readLocalizedValue (value : JSValue) (locale : String) : JSValue :=
  if !jsTruthy value then .undef
  else
    match value with
    | .str s => .str s
    | .arr _ | .obj _ =>
      if jsTruthy (jsGet value locale) then jsGet value locale
      else if jsTruthy (jsGet value "en") then jsGet value "en"
      else .undef
    | _ => (.undef)

/-- Embeds `getLocalizedField` (src/i18n/locale.ts:21).  The source
reads the process-wide current locale; the embedding threads that
locale as the first explicit argument.  The result can be any JS value
(the flat suffixed key and the translations table are returned
unconverted). -/
def getLocalizedField (locale : String) (source : JSValue) (field : String)
    (fallback : String := "") : JSValue :=
  if !jsTruthy source then .str fallback
  else
    let localizedKey := field ++ "_" ++ locale
    if jsTruthy (jsGet source localizedKey) then jsGet source localizedKey
    else
      let fieldValue := jsGet source field
      let localizedValue := readLocalizedValue fieldValue locale
      if jsTruthy localizedValue then localizedValue
      else
        let translations := jsOr (jsGet source "translations") (jsGet source "i18n")
        if jsTruthy translations ∧ jsTruthy (jsGet translations locale) ∧
            jsTruthy (jsGet (jsGet translations locale) field) then
          jsGet (jsGet translations locale) field
        else
          match fieldValue with
          | .str s => .str s
          | _ => .str fallback

/-- The six-step resolution order exactly as the specification words it:
(1) the flat suffixed key `field_<locale>` if present/truthy; (2)
`source[field]` if it is itself a (truthy) string; (3) `source[field]`
as a locale-keyed map — the current-locale entry, else the `en` entry;
(4) the nested `translations`/`i18n` map at `[locale][field]`; (5)
`source[field]` again if it is a plain string (the defensive re-check,
which unlike step 2 also accepts the empty string); (6) the supplied
fallback.  Written from the specification text, to be compared with the
source-derived `getLocalizedField`. -/
def specLocalizedField (locale : String) (source : JSValue) (field : String)
    (fallback : String := "") : JSValue :=
  let step1 := jsGet source (field ++ "_" ++ locale)
  if jsTruthy step1 then step1
  else
    let fieldValue := jsGet source field
    let step2 : Option JSValue :=
      match fieldValue with
      | .str s => if s ≠ "" then some (.str s) else none
      | _ => none
    let step3 : Option JSValue :=
      match fieldValue with
      | .arr _ | .obj _ =>
        if jsTruthy (jsGet fieldValue locale) then some (jsGet fieldValue locale)
        else if jsTruthy (jsGet fieldValue "en") then some (jsGet fieldValue "en")
        else none
      | _ => none
    let translations := jsOr (jsGet source "translations") (jsGet source "i18n")
    let step4 : Option JSValue :=
      if jsTruthy translations ∧ jsTruthy (jsGet translations locale) ∧
          jsTruthy (jsGet (jsGet translations locale) field) then
        some (jsGet (jsGet translations locale) field)
      else none
    let step5 : Option JSValue :=
      match fieldValue with
      | .str s => some (.str s)
      | _ => none
    ((((step2.or step3).or step4).or step5).getD (.str fallback))

/-- Does the string start with the given pattern (JS
`String.prototype.startsWith`). -/
def startsWithStr (s pat : String) : Bool :=
  pat.data.isPrefixOf s.data

/-- Does the string end with the given pattern (JS
`String.prototype.endsWith`). -/
def endsWithStr (s pat : String) : Bool :=
  pat.data.isSuffixOf s.data

/-- Index of the first occurrence of `pat` in `hay`, if any. -/
def firstIndexOfSub (hay pat : List Char) : Option Nat :=
  match hay with
  | [] => if pat.isEmpty then some 0 else none
  | _ :: t =>
    if pat.isPrefixOf hay then some 0
    else (firstIndexOfSub t pat).map (· + 1)

/-- JS `String.prototype.replace` with a plain-string pattern: replaces
only the first occurrence (the `$`-escape forms of the replacement
argument are not used by the embedded code and are not modelled). -/
def replaceFirst (s pat repl : String) : String :=
  match firstIndexOfSub s.data pat.data with
  | some i => ((s.data.take i) ++ repl.data ++ (s.data.drop (i + pat.data.length))).asString
  | none => s

/-- The `Platform.OS` values distinguished by `getBaseUrl`
(src/services/api.ts:13); every non-android non-web platform takes the
final branch, which `ios` stands for here. -/
inductive PlatformOS where
  | android
  | web
  | ios
deriving DecidableEq, Repr

/-- The build-environment inputs of `getBaseUrl`: the optional
`EXPO_PUBLIC_API_URL` variable, the `__DEV__` flag and `Platform.OS`. -/
structure ApiEnv where
  expoPublicApiUrl : Option String
  isDev : Bool
  platformOS : PlatformOS
deriving DecidableEq, Repr

/-- Strips trailing slashes: the `url.replace(/\/+$/, '')` step of
`normalizeApiUrl` (src/services/api.ts:6). -/
def dropTrailingSlashes (s : String) : String :=
  ((s.data.reverse.dropWhile (fun c => c == '/')).reverse).asString

/-- Embeds `normalizeApiUrl` (src/services/api.ts:6). -/
def normalizeApiUrl (url : String) : String :=
  let trimmed := dropTrailingSlashes url
  if endsWithStr trimmed "/api" then trimmed else trimmed ++ "/api"

/-- Embeds `getBaseUrl` (src/services/api.ts:13). -/
def getBaseUrl (env : ApiEnv) : String :=
  match env.expoPublicApiUrl with
  | some envUrl => normalizeApiUrl envUrl
  | none =>
    if env.isDev then
      match env.platformOS with
      | .android => "http://10.0.2.2:8000/api"
      | .web => "http://localhost:8000/api"
      | .ios => "http://localhost:8000/api"
    else "https://your-production-api.com/api"

/-- Hostname and pathname of a parsed URL, the only components
`getImageUrl` reads. -/
structure UrlParts where
  hostname : String
  pathname : String
deriving DecidableEq, Repr

/-- Models the WHATWG `URL` constructor for the `http(s)://` URLs the
image resolver handles: the lowercased hostname of the authority and
the pathname up to the query/fragment; other inputs fail (throw).
Userinfo, port validation, dot-segment normalization and non-slash
special-scheme forms such as `http:foo` are not modelled. -/
def parseHttpURL (s : String) : Option UrlParts :=
  let rest? :=
    if startsWithStr s "http://" then some (s.data.drop 7)
    else if startsWithStr s "https://" then some (s.data.drop 8)
    else none
  match rest? with
  | none => none
  | some rest =>
    let authority := rest.takeWhile (fun c => c != '/' && c != '?' && c != '#')
    if authority.isEmpty then none
    else
      let hostname := asciiLowercase (authority.takeWhile (fun c => c != ':')).asString
      let remaining := rest.drop authority.length
      let pathname :=
        match remaining with
        | '/' :: _ => (remaining.takeWhile (fun c => c != '?' && c != '#')).asString
        | _ => "/"
      some ⟨hostname, pathname⟩

/-- The runtime error a normalizer can propagate: the TypeError raised
by `path.startsWith` when `getImageUrl` receives a truthy non-string. -/
inductive JSError where
  | typeError
deriving DecidableEq, Repr

/-- Embeds `getImageUrl` (src/services/api.ts:36).  Falsy input yields
`undefined`; string input is resolved against the API base URL
(loopback hostnames rewritten, relative paths prefixed with
`/storage`); a truthy non-string input reaches `path.startsWith`, which
throws a TypeError — the declared parameter type is
`string | null | undefined`, but normalizers pass raw `any` fields. -/
def getImageUrl (env : ApiEnv) (path : JSValue) : Except JSError (Option String) :=
  if !jsTruthy path then .ok none
  else
    match path with
    | .str p =>
      let baseUrl := replaceFirst (getBaseUrl env) "/api" ""
      if startsWithStr p "http" then
        match parseHttpURL p with
        | some parsed =>
          if parsed.hostname = "localhost" ∨ parsed.hostname = "127.0.0.1" ∨
              parsed.hostname = "10.0.2.2" then
            .ok (some (baseUrl ++ parsed.pathname))
          else .ok (some p)
        | none => .ok (some p)
      else
        let cleanPath := if startsWithStr p "/" then p else "/" ++ p
        let cleanPath2 :=
          if startsWithStr cleanPath "/storage" then cleanPath else "/storage" ++ cleanPath
        .ok (some (baseUrl ++ cleanPath2))
    | _ => .error .typeError

/-- The value of a JS `x || ''` applied to `getImageUrl`'s
`string | undefined` result. -/
def imageOrEmpty (r : Option String) : String :=
  match r with
  | some s => s
  | none => ""

/-- Truthiness of `getImageUrl`'s `string | undefined` result. -/
def imageTruthy (r : Option String) : Bool :=
  match r with
  | some s => s != ""
  | none => false

theorem jsValue_sizeOf_pos (v : JSValue) : 1 ≤ sizeOf v := by
  cases v <;> simp

theorem jsGet_sizeOf_le (v : JSValue) (key : String) : sizeOf (jsGet v key) ≤ sizeOf v := by
  cases v with
  | obj fields =>
    simp only [jsGet]
    cases hf : fields.find? (fun p => p.1 = key) with
    | none => cases fields <;> simp
    | some p =>
      have hm : p ∈ fields := List.mem_of_find?_eq_some hf
      have h1 : sizeOf p < sizeOf fields := List.sizeOf_lt_of_mem hm
      have h2 : sizeOf p.2 < sizeOf p := by
        cases p with
        | mk a b => simp
      simp only
      simp
      omega
  | undef => simp [jsGet]
  | null => simp [jsGet]
  | bool b => simp [jsGet]
  | num n => simp [jsGet]
  | str s => simp [jsGet]
  | arr elems => simp [jsGet]

theorem mem_unwrapCollection_sizeOf_lt (v x : JSValue) (hx : x ∈ unwrapCollection v) :
    sizeOf x < sizeOf v := by
  have hmem : ∀ (elems : List JSValue), x ∈ elems → sizeOf x < sizeOf elems :=
    fun _ h => List.sizeOf_lt_of_mem h
  cases v with
  | arr elems =>
    simp only [unwrapCollection] at hx
    have := hmem elems hx
    simp
    omega
  | obj fields =>
    simp only [unwrapCollection] at hx
    by_cases ht : jsTruthy (JSValue.obj fields)
    · rw [if_pos ht] at hx
      cases hg : jsGet (JSValue.obj fields) "data" with
      | arr elems =>
        rw [hg] at hx
        have h1 := hmem elems hx
        have h2 := jsGet_sizeOf_le (JSValue.obj fields) "data"
        rw [hg] at h2
        simp at h2 ⊢
        omega
      | undef => rw [hg] at hx; simp at hx
      | null => rw [hg] at hx; simp at hx
      | bool b => rw [hg] at hx; simp at hx
      | num n => rw [hg] at hx; simp at hx
      | str s => rw [hg] at hx; simp at hx
      | obj f2 => rw [hg] at hx; simp at hx
    · rw [if_neg ht] at hx
      simp at hx
  | undef => simp [unwrapCollection, jsTruthy] at hx
  | null => simp [unwrapCollection, jsTruthy] at hx
  | bool b =>
    simp only [unwrapCollection] at hx
    split at hx <;> simp_all [jsGet]
  | num n =>
    simp only [unwrapCollection] at hx
    split at hx <;> simp_all [jsGet]
  | str s =>
    simp only [unwrapCollection] at hx
    split at hx <;> simp_all [jsGet]

/-- Effectful map over a list in the `Except` monad, evaluating left to
right and propagating the first error: the behaviour of a JS
`Array.prototype.map` whose callback may throw. -/
def mapExcept (f : α → Except ε β) : List α → Except ε (List β)
  | [] => .ok []
  | x :: xs => f x >>= fun y => mapExcept f xs >>= fun ys => pure (y :: ys)

/-- Embeds `normalizeSlide` (normalizers.ts:65). -/
def normalizeSlide (env : ApiEnv) (locale : String) (slide : JSValue) :
    Except JSError JSValue :=
  getImageUrl env (jsNullish (jsGet slide "image_url") (jsGet slide "image")) >>= fun image =>
  pure (.obj [
    ("id", jsNullish (jsGet slide "id") (.num (.val 0))),
    ("title", getLocalizedField locale slide "title" (safeString (jsGet slide "title"))),
    ("subtitle", getLocalizedField locale slide "subtitle" (safeString (jsGet slide "subtitle"))),
    ("image", .str (imageOrEmpty image)),
    ("title_en", .str (safeString (jsNullish (jsGet slide "title_en") (jsGet slide "title")))),
    ("title_ar", .str (safeString (jsGet slide "title_ar"))),
    ("title_ku", .str (safeString (jsGet slide "title_ku"))),
    ("title_ku_sorani", .str (safeString (jsGet slide "title_ku_sorani"))),
    ("title_ku_badini", .str (safeString (jsGet slide "title_ku_badini"))),
    ("subtitle_en", .str (safeString (jsNullish (jsGet slide "subtitle_en") (jsGet slide "subtitle")))),
    ("subtitle_ar", .str (safeString (jsGet slide "subtitle_ar"))),
    ("subtitle_ku", .str (safeString (jsGet slide "subtitle_ku"))),
    ("subtitle_ku_sorani", .str (safeString (jsGet slide "subtitle_ku_sorani"))),
    ("subtitle_ku_badini", .str (safeString (jsGet slide "subtitle_ku_badini"))),
    ("link_type", jsNullish (jsGet slide "link_type") (.str "url")),
    ("link_value", jsNullish (jsGet slide "link_value") (jsNullish (jsGet slide "link") (.str "")))])

/-- The image list of `normalizeCategory`/`normalizeProduct`: raw
entries through `getImageUrl`, then `.filter(Boolean)` keeping only
truthy (non-empty) resolved strings. -/
def resolveImageList (env : ApiEnv) (items : List JSValue) : Except JSError (List String) :=
  mapExcept (getImageUrl env) items >>= fun resolved =>
  pure (resolved.filterMap (fun r =>
    match r with
    | some s => if s ≠ "" then some s else none
    | none => none))

/-- Embeds `normalizeCategory` (normalizers.ts:86), recursing over the
unwrapped `children` collection exactly as the source does; the tree is
supplied whole, and the recursion is well-founded because every child
is a structural part of its parent payload. -/
def normalizeCategory (env : ApiEnv) (locale : String) (category : JSValue) :
    Except JSError JSValue :=
  getImageUrl env (jsNullish (jsGet category "image_url") (jsGet category "image")) >>= fun image =>
  (match jsGet category "hero_images" with
    | .arr items => resolveImageList env items
    | _ => pure []) >>= fun heroImages =>
  (mapExcept
    (fun (x : {x // x ∈ unwrapCollection (jsGet category "children")}) =>
      normalizeCategory env locale x.1)
    (unwrapCollection (jsGet category "children")).attach) >>= fun children =>
  pure (.obj [
    ("id", jsNullish (jsGet category "id") (.num (.val 0))),
    ("name", getLocalizedField locale category "name" (safeString (jsGet category "name"))),
    ("slug", .str (safeString (jsGet category "slug"))),
    ("icon", .str (safeString (jsGet category "icon"))),
    ("image", .str (imageOrEmpty image)),
    ("hero_images", .arr (heroImages.map JSValue.str)),
    ("name_en", .str (safeString (jsNullish (jsGet category "name_en") (jsGet category "name")))),
    ("name_ar", .str (safeString (jsGet category "name_ar"))),
    ("name_ku", .str (safeString (jsGet category "name_ku"))),
    ("name_ku_sorani", .str (safeString (jsGet category "name_ku_sorani"))),
    ("name_ku_badini", .str (safeString (jsGet category "name_ku_badini"))),
    ("parent_id", jsNullish (jsGet category "parent_id") .null),
    ("products_count", jsGet category "products_count"),
    ("children", .arr children)])
termination_by sizeOf category
decreasing_by
  have h1 := mem_unwrapCollection_sizeOf_lt (jsGet category "children") x.1 x.2
  have h2 := jsGet_sizeOf_le category "children"
  omega

/-- JS strict equality of a value against a string literal. -/
def strictEqStr (v : JSValue) (s : String) : Bool :=
  match v with
  | .str t => t == s
  | _ => false

/-- Embeds `normalizeVendor` (normalizers.ts:107): `is_verified` is
coerced when explicitly present (neither undefined nor null), else
derived from `status === 'approved'`. -/
def normalizeVendor (env : ApiEnv) (vendor : JSValue) : Except JSError JSValue :=
  getImageUrl env
    (jsNullish (jsGet vendor "profile_image_url")
      (jsNullish (jsGet vendor "logo") (jsGet vendor "profile_image"))) >>= fun logo =>
  getImageUrl env
    (jsNullish (jsGet vendor "cover_image_url")
      (jsNullish (jsGet vendor "banner") (jsGet vendor "cover_image"))) >>= fun banner =>
  let isVerified :=
    match jsGet vendor "is_verified" with
    | .undef => strictEqStr (jsNullish (jsGet vendor "status") (.str "")) "approved"
    | .null => strictEqStr (jsNullish (jsGet vendor "status") (.str "")) "approved"
    | v => toBool v "vendor.is_verified"
  pure (.obj [
    ("id", jsNullish (jsGet vendor "id") (.num (.val 0))),
    ("name", .str (safeString (jsNullish (jsGet vendor "store_name") (jsGet vendor "name")))),
    ("slug", .str (safeString (jsGet vendor "slug"))),
    ("description", .str (safeString (jsGet vendor "description"))),
    ("logo", .str (imageOrEmpty logo)),
    ("banner", .str (imageOrEmpty banner)),
    ("is_verified", .bool isVerified)])

/-- Embeds `normalizeProductVariant` (normalizers.ts:122): an
attributes record built from truthy `size`/`color`, a display name
joined from the truthy parts (falling back to `Variant <id>`), and
coerced price/stock fields. -/
def normalizeProductVariant (variant : JSValue) : JSValue :=
  let attributes :=
    (if jsTruthy (jsGet variant "size")
      then [("size", JSValue.str (safeString (jsGet variant "size")))] else []) ++
    (if jsTruthy (jsGet variant "color")
      then [("color", JSValue.str (safeString (jsGet variant "color")))] else [])
  let nameParts :=
    ([jsGet variant "name", jsGet variant "size", jsGet variant "color"].filter jsTruthy).map
      (fun part => safeString part)
  let fallbackName :=
    if nameParts.length > 0 then String.intercalate " " nameParts
    else jsTrim ("Variant " ++ jsToString (jsNullish (jsGet variant "id") (.str "")))
  .obj [
    ("id", jsNullish (jsGet variant "id") (.num (.val 0))),
    ("name", .str (safeString (.str fallbackName))),
    ("sku", .str (safeString (jsGet variant "sku"))),
    ("price", .str (safeString
      (jsNullish (jsGet variant "effective_price")
        (jsNullish (jsGet variant "price") (.str "0"))))),
    ("compare_price", jsNullish (jsGet variant "compare_price") .null),
    ("stock", .num (.val (safeNumber (jsGet variant "stock") 0))),
    ("attributes", .obj attributes)]

/-- JS `n > 0` on a number. -/
def jsnGtZero : JSNum → Bool
  | .val q => decide (0 < q)
  | .inf => true
  | _ => false

/-- The `variant.stock > 0` predicate of `normalizeProduct`; normalized
variants always carry a numeric `stock`, so the coercing branches of a
generic JS `>` cannot fire and are not modelled. -/
def variantStockPositive (variant : JSValue) : Bool :=
  match jsGet variant "stock" with
  | .num n => jsnGtZero n
  | _ => false

/-- Embeds `normalizeProduct` (normalizers.ts:143).  The thumbnail
chain `getImageUrl(thumbnail) || getImageUrl(image_url ?? image) ||
images[0] || ''` evaluates lazily, so a later throwing operand is never
reached when an earlier one is truthy; `in_stock` is coerced when the
raw field is not undefined, else derived from the variants; `category`
and `vendor` are normalized only when truthy. -/
def normalizeProduct (env : ApiEnv) (locale : String) (product : JSValue) :
    Except JSError JSValue :=
  resolveImageList env (match jsGet product "images" with | .arr elems => elems | _ => []) >>=
    fun images =>
  getImageUrl env (jsGet product "thumbnail") >>= fun t1 =>
  (if imageTruthy t1 then pure (imageOrEmpty t1)
    else
      getImageUrl env (jsNullish (jsGet product "image_url") (jsGet product "image")) >>=
        fun t2 =>
      pure (if imageTruthy t2 then imageOrEmpty t2
        else match images.head? with | some s => s | none => "")) >>= fun thumbnail =>
  (if jsTruthy (jsGet product "category") then
      normalizeCategory env locale (jsGet product "category")
    else pure .undef) >>= fun category =>
  (if jsTruthy (jsGet product "vendor") then
      normalizeVendor env (jsGet product "vendor")
    else pure .undef) >>= fun vendor =>
  let variants := (unwrapCollection (jsGet product "variants")).map normalizeProductVariant
  let inStock :=
    match jsGet product "in_stock" with
    | .undef => variants.any variantStockPositive
    | v => toBool v "product.in_stock"
  let isWishlisted :=
    match jsGet product "is_wishlisted" with
    | .undef => JSValue.undef
    | .null => JSValue.undef
    | v => .bool (toBool v "product.is_wishlisted")
  let isActive :=
    match jsGet product "is_active" with
    | .undef => JSValue.undef
    | .null => JSValue.undef
    | v => .bool (toBool v "product.is_active")
  pure (.obj [
    ("id", jsNullish (jsGet product "id") (.num (.val 0))),
    ("name", getLocalizedField locale product "name" (safeString (jsGet product "name"))),
    ("slug", .str (safeString (jsGet product "slug"))),
    ("description", getLocalizedField locale product "description"
      (safeString (jsGet product "description"))),
    ("short_description", .str (safeString (getLocalizedField locale product "short_description"
      (safeString (jsNullish (jsGet product "short_description") (jsGet product "description")))))),
    ("name_en", .str (safeString (jsNullish (jsGet product "name_en") (jsGet product "name")))),
    ("name_ar", .str (safeString (jsGet product "name_ar"))),
    ("name_ku", .str (safeString (jsGet product "name_ku"))),
    ("name_ku_sorani", .str (safeString (jsGet product "name_ku_sorani"))),
    ("name_ku_badini", .str (safeString (jsGet product "name_ku_badini"))),
    ("description_en", .str (safeString (jsNullish (jsGet product "description_en") (jsGet product "description")))),
    ("description_ar", .str (safeString (jsGet product "description_ar"))),
    ("description_ku", .str (safeString (jsGet product "description_ku"))),
    ("description_ku_sorani", .str (safeString (jsGet product "description_ku_sorani"))),
    ("description_ku_badini", .str (safeString (jsGet product "description_ku_badini"))),
    ("price", .str (safeString (jsNullish (jsGet product "price")
      (jsNullish (jsGet product "base_price") (jsNullish (jsGet product "min_price") (.str "0")))))),
    ("compare_price", jsNullish (jsGet product "compare_price") .null),
    ("discount_percentage", jsNullish (jsGet product "discount_percentage") .null),
    ("is_wishlisted", isWishlisted),
    ("status", .str (safeString (jsNullish (jsGet product "status") (.str "")))),
    ("is_active", isActive),
    ("images", .arr (images.map JSValue.str)),
    ("thumbnail", .str thumbnail),
    ("category", category),
    ("vendor", vendor),
    ("variants", .arr variants),
    ("in_stock", .bool inStock),
    ("average_rating", .num (.val (safeNumber (jsGet product "average_rating") 0))),
    ("reviews_count", .num (.val (safeNumber (jsGet product "reviews_count") 0)))])

/-- Embeds `normalizeCartItem` (normalizers.ts:196): the `product`
field is always normalized, with `{}` substituted when the raw field is
nullish; `variant` is normalized only when truthy, else `null`. -/
def normalizeCartItem (env : ApiEnv) (locale : String) (item : JSValue) :
    Except JSError JSValue :=
  normalizeProduct env locale (jsNullish (jsGet item "product") (.obj [])) >>= fun product =>
  pure (.obj [
    ("id", jsNullish (jsGet item "id") (.num (.val 0))),
    ("product", product),
    ("variant", if jsTruthy (jsGet item "variant")
      then normalizeProductVariant (jsGet item "variant") else .null),
    ("quantity", .num (.val (safeNumber (jsGet item "quantity") 0))),
    ("unit_price", .str (safeString
      (jsNullish (jsGet item "unit_price") (jsNullish (jsGet item "price") (.str "0"))))),
    ("subtotal", .str (safeString (jsNullish (jsGet item "subtotal") (.str "0"))))])

/-- JS numeric addition with NaN and infinity propagation. -/
def jsnAdd : JSNum → JSNum → JSNum
  | .nan, _ => .nan
  | _, .nan => .nan
  | .inf, .negInf => .nan
  | .negInf, .inf => .nan
  | .inf, _ => .inf
  | _, .inf => .inf
  | .negInf, _ => .negInf
  | _, .negInf => .negInf
  | .val a, .val b => .val (a + b)

/-- One term of the `items.reduce((total, item) => total + (item.quantity || 0), 0)`
fold of `normalizeCart`; normalized cart items always carry a numeric
quantity, so the string-concatenation branch of JS `+` cannot fire and
non-numeric terms are modelled as NaN. -/
def quantityTerm (item : JSValue) : JSNum :=
  match jsOr (jsGet item "quantity") (.num (.val 0)) with
  | .num n => n
  | _ => .nan

/-- The quantity fold of `normalizeCart` (normalizers.ts:212). -/
def sumQuantities (items : List JSValue) : JSNum :=
  items.foldl (fun total item => jsnAdd total (quantityTerm item)) (.val 0)

/-- Embeds `normalizeCart` (normalizers.ts:207): items are unwrapped
and normalized, `items_count` prefers the summary value over the
quantity fold, and `subtotal`/`total` chain through the summary with a
`'0'` default. -/
def normalizeCart (env : ApiEnv) (locale : String) (payload : JSValue) :
    Except JSError JSValue :=
  mapExcept (normalizeCartItem env locale) (unwrapCollection (jsGet payload "items")) >>=
    fun items =>
  let summary := jsNullish (jsGet payload "summary") (.obj [])
  let itemsCount := jsNullish (jsGet summary "items_count") (.num (sumQuantities items))
  let subtotal := jsNullish (jsGet summary "subtotal") (jsNullish (jsGet summary "total") (.str "0"))
  let total := jsNullish (jsGet summary "total") (jsNullish subtotal (.str "0"))
  pure (.obj [
    ("items", .arr items),
    ("items_count", .num (.val (safeNumber itemsCount 0))),
    ("subtotal", .str (safeString subtotal)),
    ("total", .str (safeString total))])

/-- Embeds `normalizeAddress` (normalizers.ts:224). -/
def normalizeAddress (address : JSValue) : JSValue :=
  .obj [
    ("id", jsNullish (jsGet address "id") (.num (.val 0))),
    ("label", .str (safeString (jsGet address "label"))),
    ("recipient_name", .str (safeString
      (jsNullish (jsGet address "recipient_name") (jsGet address "full_name")))),
    ("phone", .str (safeString (jsGet address "phone"))),
    ("street_address", .str (safeString
      (jsNullish (jsGet address "street_address") (jsGet address "address_line_1")))),
    ("city", .str (safeString (jsGet address "city"))),
    ("state", .str (safeString (jsGet address "state"))),
    ("postal_code", .str (safeString (jsGet address "postal_code"))),
    ("country", .str (safeString (jsGet address "country"))),
    ("is_default", .bool (toBool (jsGet address "is_default") "address.is_default")),
    ("full_address", .str (safeString (jsGet address "full_address")))]

/-- Embeds `normalizeOrder` (normalizers.ts:240). -/
def normalizeOrder (order : JSValue) : JSValue :=
  let total := jsNullish (jsGet order "total")
    (jsNullish (jsGet order "total_amount") (jsNullish (jsGet order "subtotal") (.str "0")))
  .obj [
    ("id", jsNullish (jsGet order "id") (.num (.val 0))),
    ("order_number", .str (safeString
      (jsNullish (jsGet order "order_number") (jsNullish (jsGet order "order_no") (.str ""))))),
    ("status", .str (safeString (jsGet order "status"))),
    ("items", .arr []),
    ("subtotal", .str (safeString (jsNullish (jsGet order "subtotal") total))),
    ("total", .str (safeString total)),
    ("created_at", .str (safeString (jsGet order "created_at")))]

/-- Embeds `normalizeUser` (normalizers.ts:254): `is_vendor` is coerced
when explicitly present (neither undefined nor null), else derived from
`role === 'vendor'`. -/
def normalizeUser (user : JSValue) : JSValue :=
  let isVendor :=
    match jsGet user "is_vendor" with
    | .undef => strictEqStr (jsGet user "role") "vendor"
    | .null => strictEqStr (jsGet user "role") "vendor"
    | v => toBool v "user.is_vendor"
  .obj [
    ("id", jsNullish (jsGet user "id") (.num (.val 0))),
    ("name", .str (safeString (jsGet user "name"))),
    ("email", .str (safeString (jsGet user "email"))),
    ("phone", jsNullish (jsGet user "phone") .null),
    ("avatar", jsNullish (jsGet user "avatar") .null),
    ("is_vendor", .bool isVendor)]

/-- Embeds `normalizeCoupon` (normalizers.ts:268). -/
def normalizeCoupon (coupon : JSValue) : JSValue :=
  let type := if strictEqStr (jsGet coupon "type") "fixed" then "fixed" else "percent"
  .obj [
    ("id", jsNullish (jsGet coupon "id") (.num (.val 0))),
    ("code", .str (safeString (jsGet coupon "code"))),
    ("type", .str type),
    ("value", .str (safeString (jsNullish (jsGet coupon "value") (.str "0")))),
    ("expires_at", jsNullish (jsGet coupon "expires_at") .null),
    ("is_active", .bool (toBool (jsGet coupon "is_active") "coupon.is_active"))]

/-- The development web/iOS environment: no `EXPO_PUBLIC_API_URL`,
`__DEV__` true, base URL `http://localhost:8000`. -/
def devEnv : ApiEnv := ⟨none, true, .web⟩

/-- A cart item as `CartScreen` manipulates it (the fields its handlers
read and write; the embedded `product`/`variant` objects are display
only there and do not participate in any mutation).  JS numbers are
rationals as elsewhere. -/
structure CItem where
  id : ℚ
  quantity : ℚ
  unit_price : String
  subtotal : String
deriving DecidableEq, Repr

/-- The cart value owned by `CartScreen`. -/
structure CCart where
  items : List CItem
  items_count : ℚ
  subtotal : String
  total : String
deriving DecidableEq, Repr

/-- The `Number.parseFloat` / `Number.isFinite` guard used on
`item.unit_price` by `calculateCartTotals` and `handleUpdateQuantity`
(CartScreen.tsx:41 and 114). -/
def safeUnitPrice (s : String) : ℚ :=
  match parseFloatJS s with
  | .val q => q
  | _ => 0

/-- The totals record produced by `calculateCartTotals`. -/
structure CartTotals where
  items_count : ℚ
  subtotal : String
  total : String
deriving DecidableEq, Repr

/-- Embeds `calculateCartTotals` (CartScreen.tsx:38): items count is
the quantity sum, the subtotal is the 2-decimal rendering of the
unit-price × quantity sum, and the total equals the subtotal. -/
def calculateCartTotals (items : List CItem) : CartTotals :=
  let itemsCount := items.foldl (fun total item => total + item.quantity) 0
  let subtotalValue :=
    items.foldl (fun total item => total + safeUnitPrice item.unit_price * item.quantity) 0
  let subtotal := toFixed2 (.val subtotalValue)
  ⟨itemsCount, subtotal, subtotal⟩

/-- Embeds `updateCartState` (CartScreen.tsx:54): applies the updater
to the item list and replaces the cart's items and totals. -/
def updateCartState (cart : CCart) (updater : List CItem → List CItem) : CCart :=
  let items := updater cart.items
  let totals := calculateCartTotals items
  { cart with
    items := items
    items_count := totals.items_count
    subtotal := totals.subtotal
    total := totals.total }

/-- Embeds `fetchCart` (CartScreen.tsx:75) as a function of the current
displayed cart: without an auth token nothing is fetched; a successful
fetch replaces the cart; a failed fetch only logs, leaving the
displayed cart unchanged. -/
def fetchCartResult (current : CCart) (hasAuth : Bool) (fetched : Except String CCart) : CCart :=
  if !hasAuth then current
  else
    match fetched with
    | .ok data => data
    | .error _ => current

/-- The observable outcome of one optimistic cart mutation: the cart
displayed synchronously after the optimistic apply (before any server
response), the cart displayed once the confirmation settled, and the
alert message surfaced on failure. -/
structure MutationOutcome where
  optimistic : CCart
  final : CCart
  alert : Option String
deriving DecidableEq, Repr

/-- The `err.message || t('cart.update_failed', ...)` alert text: the
server message when non-empty, else the translated default. -/
def alertMessage (msg fallbackText : String) : String :=
  if msg ≠ "" then msg else fallbackText

/-- Embeds `handleRemoveItem` (CartScreen.tsx:137) with the
asynchronous environment passed explicitly: `serverResult` is the
settled `removeFromCart` promise (a fresh authoritative cart on
success) and `refetch`/`hasAuth` feed the `fetchCart` rollback on
failure. -/
def handleRemoveItem (cart : CCart) (itemId : ℚ) (hasAuth : Bool)
    (serverResult : Except String CCart) (refetch : Except String CCart) : MutationOutcome :=
  let optimistic := updateCartState cart (fun items => items.filter (fun item => item.id ≠ itemId))
  match serverResult with
  | .ok updatedCart => ⟨optimistic, updatedCart, none⟩
  | .error msg =>
    ⟨optimistic, fetchCartResult optimistic hasAuth refetch,
      some (alertMessage msg "Failed to remove item")⟩

/-- Embeds `handleUpdateQuantity` (CartScreen.tsx:104): a candidate
quantity below 1 delegates to removal; otherwise the item's quantity
and 2-decimal subtotal are replaced optimistically and the cart totals
recomputed, all before the network call; on success the server cart
replaces the optimistic one wholesale; on failure `fetchCart` re-fetches
the authoritative cart and the error message is alerted. -/
def handleUpdateQuantity (cart : CCart) (itemId currentQuantity change : ℚ) (hasAuth : Bool)
    (serverResult : Except String CCart) (refetch : Except String CCart) : MutationOutcome :=
  let newQuantity := currentQuantity + change
  if newQuantity < 1 then handleRemoveItem cart itemId hasAuth serverResult refetch
  else
    let optimistic := updateCartState cart (fun items => items.map (fun item =>
      if item.id ≠ itemId then item
      else { item with
        quantity := newQuantity
        subtotal := toFixed2 (.val (safeUnitPrice item.unit_price * newQuantity)) }))
    match serverResult with
    | .ok updatedCart => ⟨optimistic, updatedCart, none⟩
    | .error msg =>
      ⟨optimistic, fetchCartResult optimistic hasAuth refetch,
        some (alertMessage msg "Failed to update quantity")⟩

/-- Embeds `applyCoupon` (src/services/endpoints.ts): the endpoint runs
`GET /cart` and `POST /cart/coupon` concurrently, normalizes the fetched
cart (`fetchedCart` stands for that normalized value) and spreads it
with only `subtotal` and `total` overridden by the stringified coupon
response values when present. -/
def applyCouponEndpoint (fetchedCart : CCart) (couponBody : JSValue) : CCart :=
  let couponData := jsNullish couponBody (.obj [])
  { fetchedCart with
    subtotal := jsToString (jsNullish (jsGet couponData "subtotal") (.str fetchedCart.subtotal))
    total := jsToString (jsNullish (jsGet couponData "total") (.str fetchedCart.total)) }

/-- The observable outcome of `handleApplyCoupon`: the cart displayed
while the request is in flight, the final displayed cart, and the alert
text shown. -/
structure CouponOutcome where
  duringRequest : CCart
  final : CCart
  alert : String
deriving DecidableEq, Repr

/-- Embeds `handleApplyCoupon` (CartScreen.tsx:153): an empty (trimmed)
code only alerts; otherwise no cart state changes until the round trip
settles, then the returned cart replaces the displayed one on success
while a failure leaves the displayed cart untouched and alerts the
server message (or the default text when empty). -/
def handleApplyCoupon (current : CCart) (couponCode : String)
    (result : Except String CCart) : CouponOutcome :=
  if jsTrim couponCode = "" then ⟨current, current, "Please enter a coupon code"⟩
  else
    match result with
    | .ok updatedCart => ⟨current, updatedCart, "Coupon applied successfully!"⟩
    | .error msg => ⟨current, current, alertMessage msg "Failed to apply coupon"⟩

/-! ### General lemmas about the JS-value helpers -/

theorem jsGet_obj_cons (k : String) (v : JSValue) (rest : List (String × JSValue)) (key : String) :
    jsGet (.obj ((k, v) :: rest)) key = if k = key then v else jsGet (.obj rest) key := by
  simp only [jsGet, List.find?]
  by_cases h : k = key
  · simp [h]
  · simp [h]

theorem jsGet_obj_nil (key : String) : jsGet (.obj []) key = .undef := rfl

theorem jsNullish_jsNullish (a b : JSValue) : jsNullish (jsNullish a b) b = jsNullish a b := by
  by_cases ha : isNullish a = true
  · simp [jsNullish, ha]
  · simp [jsNullish, ha]

theorem jsNullish_of_nullish {a : JSValue} (h : isNullish a = true) (b : JSValue) :
    jsNullish a b = b := by
  simp [jsNullish, h]

theorem jsNullish_str (s : String) (b : JSValue) : jsNullish (.str s) b = .str s := rfl

theorem jsNullish_bool (c : Bool) (b : JSValue) : jsNullish (.bool c) b = .bool c := rfl

theorem safeString_str (s : String) (f : String) : safeString (.str s) f = s := rfl

theorem toBool_bool (b : Bool) (l : String) : toBool (.bool b) l = b := rfl

theorem bind_ok_iff {ε α β : Type} {e : Except ε α} {f : α → Except ε β} {c : β} :
    (e >>= f) = .ok c ↔ ∃ a, e = .ok a ∧ f a = .ok c := by
  cases e <;> simp [Bind.bind, Except.bind]

/-- The key list of an object value, `none` on non-objects; a canonical
entity is fully populated exactly when this is the entity's full
documented key list. -/
def jsKeys : JSValue → Option (List String)
  | .obj fields => some (fields.map (fun p => p.1))
  | _ => none

/-- Discriminates string values, used to exhibit type changes between
repeated normalizations. -/
def isStringValue : JSValue → Bool
  | .str _ => true
  | _ => false

/-- Every element of a successful `mapExcept` is a successful image of
some input element. -/
theorem mapExcept_ok_mem {α β : Type} {ε : Type} (f : α → Except ε β) :
    ∀ (l : List α) (ys : List β), mapExcept f l = .ok ys →
      ∀ y ∈ ys, ∃ x, f x = .ok y := by
  intro l
  induction l with
  | nil =>
    intro ys h y hy
    simp only [mapExcept, Except.ok.injEq] at h
    subst h
    simp at hy
  | cons x xs ih =>
    intro ys h y hy
    simp only [mapExcept] at h
    rw [bind_ok_iff] at h
    obtain ⟨b, hb, h⟩ := h
    rw [bind_ok_iff] at h
    obtain ⟨bs, hbs, h⟩ := h
    simp only [pure, Except.pure, Except.ok.injEq] at h
    subst h
    rcases List.mem_cons.mp hy with hy1 | hy2
    · exact ⟨x, hy1 ▸ hb⟩
    · exact ih bs hbs y hy2

/-! ### Output shapes of the fallible normalizers -/

theorem normalizeSlide_ok_shape (env : ApiEnv) (locale : String) (x c : JSValue)
    (h : normalizeSlide env locale x = .ok c) :
    ∃ (image : Option String),
      getImageUrl env (jsNullish (jsGet x "image_url") (jsGet x "image")) = .ok image ∧
      c = .obj [
        ("id", jsNullish (jsGet x "id") (.num (.val 0))),
        ("title", getLocalizedField locale x "title" (safeString (jsGet x "title"))),
        ("subtitle", getLocalizedField locale x "subtitle" (safeString (jsGet x "subtitle"))),
        ("image", .str (imageOrEmpty image)),
        ("title_en", .str (safeString (jsNullish (jsGet x "title_en") (jsGet x "title")))),
        ("title_ar", .str (safeString (jsGet x "title_ar"))),
        ("title_ku", .str (safeString (jsGet x "title_ku"))),
        ("title_ku_sorani", .str (safeString (jsGet x "title_ku_sorani"))),
        ("title_ku_badini", .str (safeString (jsGet x "title_ku_badini"))),
        ("subtitle_en", .str (safeString (jsNullish (jsGet x "subtitle_en") (jsGet x "subtitle")))),
        ("subtitle_ar", .str (safeString (jsGet x "subtitle_ar"))),
        ("subtitle_ku", .str (safeString (jsGet x "subtitle_ku"))),
        ("subtitle_ku_sorani", .str (safeString (jsGet x "subtitle_ku_sorani"))),
        ("subtitle_ku_badini", .str (safeString (jsGet x "subtitle_ku_badini"))),
        ("link_type", jsNullish (jsGet x "link_type") (.str "url")),
        ("link_value", jsNullish (jsGet x "link_value") (jsNullish (jsGet x "link") (.str "")))] := by
  simp only [normalizeSlide] at h
  rw [bind_ok_iff] at h
  obtain ⟨image, himg, h⟩ := h
  simp only [pure, Except.pure, Except.ok.injEq] at h
  subst h
  exact ⟨image, himg, rfl⟩

theorem normalizeCategory_ok_shape (env : ApiEnv) (locale : String) (x c : JSValue)
    (h : normalizeCategory env locale x = .ok c) :
    ∃ (image : Option String) (heroImages : List String) (children : List JSValue),
      c = .obj [
        ("id", jsNullish (jsGet x "id") (.num (.val 0))),
        ("name", getLocalizedField locale x "name" (safeString (jsGet x "name"))),
        ("slug", .str (safeString (jsGet x "slug"))),
        ("icon", .str (safeString (jsGet x "icon"))),
        ("image", .str (imageOrEmpty image)),
        ("hero_images", .arr (heroImages.map JSValue.str)),
        ("name_en", .str (safeString (jsNullish (jsGet x "name_en") (jsGet x "name")))),
        ("name_ar", .str (safeString (jsGet x "name_ar"))),
        ("name_ku", .str (safeString (jsGet x "name_ku"))),
        ("name_ku_sorani", .str (safeString (jsGet x "name_ku_sorani"))),
        ("name_ku_badini", .str (safeString (jsGet x "name_ku_badini"))),
        ("parent_id", jsNullish (jsGet x "parent_id") .null),
        ("products_count", jsGet x "products_count"),
        ("children", .arr children)] := by
  rw [normalizeCategory] at h
  rw [bind_ok_iff] at h
  obtain ⟨image, himg, h⟩ := h
  rw [bind_ok_iff] at h
  obtain ⟨heroImages, hhero, h⟩ := h
  rw [bind_ok_iff] at h
  obtain ⟨children, hch, h⟩ := h
  simp only [pure, Except.pure, Except.ok.injEq] at h
  subst h
  exact ⟨image, heroImages, children, rfl⟩

theorem normalizeVendor_ok_shape (env : ApiEnv) (x c : JSValue)
    (h : normalizeVendor env x = .ok c) :
    ∃ (logo banner : Option String),
      c = .obj [
        ("id", jsNullish (jsGet x "id") (.num (.val 0))),
        ("name", .str (safeString (jsNullish (jsGet x "store_name") (jsGet x "name")))),
        ("slug", .str (safeString (jsGet x "slug"))),
        ("description", .str (safeString (jsGet x "description"))),
        ("logo", .str (imageOrEmpty logo)),
        ("banner", .str (imageOrEmpty banner)),
        ("is_verified", .bool (match jsGet x "is_verified" with
          | .undef => strictEqStr (jsNullish (jsGet x "status") (.str "")) "approved"
          | .null => strictEqStr (jsNullish (jsGet x "status") (.str "")) "approved"
          | v => toBool v "vendor.is_verified"))] := by
  simp only [normalizeVendor] at h
  rw [bind_ok_iff] at h
  obtain ⟨logo, hlogo, h⟩ := h
  rw [bind_ok_iff] at h
  obtain ⟨banner, hban, h⟩ := h
  simp only [pure, Except.pure, Except.ok.injEq] at h
  subst h
  exact ⟨logo, banner, rfl⟩

theorem normalizeProduct_ok_shape (env : ApiEnv) (locale : String) (x c : JSValue)
    (h : normalizeProduct env locale x = .ok c) :
    ∃ (images : List String) (thumbnail : String) (category vendor : JSValue),
      (if jsTruthy (jsGet x "category") = true then
        normalizeCategory env locale (jsGet x "category") else pure .undef) = .ok category ∧
      (if jsTruthy (jsGet x "vendor") = true then
        normalizeVendor env (jsGet x "vendor") else pure .undef) = .ok vendor ∧
      c = .obj [
        ("id", jsNullish (jsGet x "id") (.num (.val 0))),
        ("name", getLocalizedField locale x "name" (safeString (jsGet x "name"))),
        ("slug", .str (safeString (jsGet x "slug"))),
        ("description", getLocalizedField locale x "description"
          (safeString (jsGet x "description"))),
        ("short_description", .str (safeString (getLocalizedField locale x "short_description"
          (safeString (jsNullish (jsGet x "short_description") (jsGet x "description")))))),
        ("name_en", .str (safeString (jsNullish (jsGet x "name_en") (jsGet x "name")))),
        ("name_ar", .str (safeString (jsGet x "name_ar"))),
        ("name_ku", .str (safeString (jsGet x "name_ku"))),
        ("name_ku_sorani", .str (safeString (jsGet x "name_ku_sorani"))),
        ("name_ku_badini", .str (safeString (jsGet x "name_ku_badini"))),
        ("description_en", .str (safeString (jsNullish (jsGet x "description_en") (jsGet x "description")))),
        ("description_ar", .str (safeString (jsGet x "description_ar"))),
        ("description_ku", .str (safeString (jsGet x "description_ku"))),
        ("description_ku_sorani", .str (safeString (jsGet x "description_ku_sorani"))),
        ("description_ku_badini", .str (safeString (jsGet x "description_ku_badini"))),
        ("price", .str (safeString (jsNullish (jsGet x "price")
          (jsNullish (jsGet x "base_price") (jsNullish (jsGet x "min_price") (.str "0")))))),
        ("compare_price", jsNullish (jsGet x "compare_price") .null),
        ("discount_percentage", jsNullish (jsGet x "discount_percentage") .null),
        ("is_wishlisted", match jsGet x "is_wishlisted" with
          | .undef => JSValue.undef
          | .null => JSValue.undef
          | v => .bool (toBool v "product.is_wishlisted")),
        ("status", .str (safeString (jsNullish (jsGet x "status") (.str "")))),
        ("is_active", match jsGet x "is_active" with
          | .undef => JSValue.undef
          | .null => JSValue.undef
          | v => .bool (toBool v "product.is_active")),
        ("images", .arr (images.map JSValue.str)),
        ("thumbnail", .str thumbnail),
        ("category", category),
        ("vendor", vendor),
        ("variants", .arr ((unwrapCollection (jsGet x "variants")).map normalizeProductVariant)),
        ("in_stock", .bool (match jsGet x "in_stock" with
          | .undef => ((unwrapCollection (jsGet x "variants")).map normalizeProductVariant).any
              variantStockPositive
          | v => toBool v "product.in_stock")),
        ("average_rating", .num (.val (safeNumber (jsGet x "average_rating") 0))),
        ("reviews_count", .num (.val (safeNumber (jsGet x "reviews_count") 0)))] := by
  simp only [normalizeProduct] at h
  rw [bind_ok_iff] at h
  obtain ⟨images, himg, h⟩ := h
  rw [bind_ok_iff] at h
  obtain ⟨t1, ht1, h⟩ := h
  rw [bind_ok_iff] at h
  obtain ⟨thumbnail, hth, h⟩ := h
  rw [bind_ok_iff] at h
  obtain ⟨category, hcat, h⟩ := h
  rw [bind_ok_iff] at h
  obtain ⟨vendor, hven, h⟩ := h
  simp only [pure, Except.pure, Except.ok.injEq] at h
  subst h
  exact ⟨images, thumbnail, category, vendor, hcat, hven, rfl⟩

theorem normalizeCartItem_ok_shape (env : ApiEnv) (locale : String) (x c : JSValue)
    (h : normalizeCartItem env locale x = .ok c) :
    ∃ (product : JSValue),
      normalizeProduct env locale (jsNullish (jsGet x "product") (.obj [])) = .ok product ∧
      c = .obj [
        ("id", jsNullish (jsGet x "id") (.num (.val 0))),
        ("product", product),
        ("variant", if jsTruthy (jsGet x "variant")
          then normalizeProductVariant (jsGet x "variant") else .null),
        ("quantity", .num (.val (safeNumber (jsGet x "quantity") 0))),
        ("unit_price", .str (safeString
          (jsNullish (jsGet x "unit_price") (jsNullish (jsGet x "price") (.str "0"))))),
        ("subtotal", .str (safeString (jsNullish (jsGet x "subtotal") (.str "0"))))] := by
  simp only [normalizeCartItem] at h
  rw [bind_ok_iff] at h
  obtain ⟨product, hp, h⟩ := h
  simp only [pure, Except.pure, Except.ok.injEq] at h
  subst h
  exact ⟨product, hp, rfl⟩

theorem normalizeCart_ok_shape (env : ApiEnv) (locale : String) (x c : JSValue)
    (h : normalizeCart env locale x = .ok c) :
    ∃ (items : List JSValue),
      mapExcept (normalizeCartItem env locale) (unwrapCollection (jsGet x "items")) = .ok items ∧
      c = .obj [
        ("items", .arr items),
        ("items_count", .num (.val (safeNumber
          (jsNullish (jsGet (jsNullish (jsGet x "summary") (.obj [])) "items_count")
            (.num (sumQuantities items))) 0))),
        ("subtotal", .str (safeString
          (jsNullish (jsGet (jsNullish (jsGet x "summary") (.obj [])) "subtotal")
            (jsNullish (jsGet (jsNullish (jsGet x "summary") (.obj [])) "total") (.str "0"))))),
        ("total", .str (safeString
          (jsNullish (jsGet (jsNullish (jsGet x "summary") (.obj [])) "total")
            (jsNullish
              (jsNullish (jsGet (jsNullish (jsGet x "summary") (.obj [])) "subtotal")
                (jsNullish (jsGet (jsNullish (jsGet x "summary") (.obj [])) "total") (.str "0")))
              (.str "0")))))] := by
  simp only [normalizeCart] at h
  rw [bind_ok_iff] at h
  obtain ⟨items, hitems, h⟩ := h
  simp only [pure, Except.pure, Except.ok.injEq] at h
  subst h
  exact ⟨items, hitems, rfl⟩

/-! ### Default canonical entities — the output of each normalizer on a
completely missing payload. -/

/-- Default Slide produced from an entirely absent payload. -/
def slideDefault : JSValue :=
  .obj [("id", .num (.val 0)), ("title", .str ""), ("subtitle", .str ""), ("image", .str ""),
    ("title_en", .str ""), ("title_ar", .str ""), ("title_ku", .str ""),
    ("title_ku_sorani", .str ""), ("title_ku_badini", .str ""), ("subtitle_en", .str ""),
    ("subtitle_ar", .str ""), ("subtitle_ku", .str ""), ("subtitle_ku_sorani", .str ""),
    ("subtitle_ku_badini", .str ""), ("link_type", .str "url"), ("link_value", .str "")]

/-- Default Category produced from an entirely absent payload. -/
def categoryDefault : JSValue :=
  .obj [("id", .num (.val 0)), ("name", .str ""), ("slug", .str ""), ("icon", .str ""),
    ("image", .str ""), ("hero_images", .arr []), ("name_en", .str ""), ("name_ar", .str ""),
    ("name_ku", .str ""), ("name_ku_sorani", .str ""), ("name_ku_badini", .str ""),
    ("parent_id", .null), ("products_count", .undef), ("children", .arr [])]

/-- Default Vendor produced from an entirely absent payload. -/
def vendorDefault : JSValue :=
  .obj [("id", .num (.val 0)), ("name", .str ""), ("slug", .str ""), ("description", .str ""),
    ("logo", .str ""), ("banner", .str ""), ("is_verified", .bool false)]

/-- Default ProductVariant produced from an entirely absent payload. -/
def variantDefault : JSValue :=
  .obj [("id", .num (.val 0)), ("name", .str "Variant"), ("sku", .str ""), ("price", .str "0"),
    ("compare_price", .null), ("stock", .num (.val 0)), ("attributes", .obj [])]

/-- Default Product produced from an entirely absent payload. -/
def productDefault : JSValue :=
  .obj [("id", .num (.val 0)), ("name", .str ""), ("slug", .str ""), ("description", .str ""),
    ("short_description", .str ""), ("name_en", .str ""), ("name_ar", .str ""),
    ("name_ku", .str ""), ("name_ku_sorani", .str ""), ("name_ku_badini", .str ""),
    ("description_en", .str ""), ("description_ar", .str ""), ("description_ku", .str ""),
    ("description_ku_sorani", .str ""), ("description_ku_badini", .str ""), ("price", .str "0"),
    ("compare_price", .null), ("discount_percentage", .null), ("is_wishlisted", .undef),
    ("status", .str ""), ("is_active", .undef), ("images", .arr []), ("thumbnail", .str ""),
    ("category", .undef), ("vendor", .undef), ("variants", .arr []), ("in_stock", .bool false),
    ("average_rating", .num (.val 0)), ("reviews_count", .num (.val 0))]

/-- Default CartItem produced from an entirely absent payload; its
product is the default Product stub, not an omitted reference. -/
def cartItemDefault : JSValue :=
  .obj [("id", .num (.val 0)), ("product", productDefault), ("variant", .null),
    ("quantity", .num (.val 0)), ("unit_price", .str "0"), ("subtotal", .str "0")]

/-- Default Cart produced from an entirely absent payload. -/
def cartDefault : JSValue :=
  .obj [("items", .arr []), ("items_count", .num (.val 0)), ("subtotal", .str "0"),
    ("total", .str "0")]

/-- Default Address produced from an entirely absent payload. -/
def addressDefault : JSValue :=
  .obj [("id", .num (.val 0)), ("label", .str ""), ("recipient_name", .str ""),
    ("phone", .str ""), ("street_address", .str ""), ("city", .str ""), ("state", .str ""),
    ("postal_code", .str ""), ("country", .str ""), ("is_default", .bool false),
    ("full_address", .str "")]

/-- Default Order produced from an entirely absent payload. -/
def orderDefault : JSValue :=
  .obj [("id", .num (.val 0)), ("order_number", .str ""), ("status", .str ""),
    ("items", .arr []), ("subtotal", .str "0"), ("total", .str "0"), ("created_at", .str "")]

/-- Default User produced from an entirely absent payload. -/
def userDefault : JSValue :=
  .obj [("id", .num (.val 0)), ("name", .str ""), ("email", .str ""), ("phone", .null),
    ("avatar", .null), ("is_vendor", .bool false)]

/-- Default Coupon produced from an entirely absent payload. -/
def couponDefault : JSValue :=
  .obj [("id", .num (.val 0)), ("code", .str ""), ("type", .str "percent"), ("value", .str "0"),
    ("expires_at", .null), ("is_active", .bool false)]

/-! ### Idempotence of the pure scalar normalizers -/

theorem normalizeAddress_idem (x : JSValue) :
    normalizeAddress (normalizeAddress x) = normalizeAddress x := by
  simp [normalizeAddress, jsGet_obj_cons, jsGet_obj_nil, jsNullish_jsNullish, jsNullish_str,
    safeString_str, toBool_bool]

theorem normalizeOrder_idem (x : JSValue) :
    normalizeOrder (normalizeOrder x) = normalizeOrder x := by
  simp [normalizeOrder, jsGet_obj_cons, jsGet_obj_nil, jsNullish_jsNullish, jsNullish_str,
    safeString_str, toBool_bool]

theorem normalizeUser_idem (x : JSValue) :
    normalizeUser (normalizeUser x) = normalizeUser x := by
  simp [normalizeUser, jsGet_obj_cons, jsGet_obj_nil, jsNullish_jsNullish, jsNullish_str,
    jsNullish_bool, safeString_str, toBool_bool]

theorem normalizeCoupon_idem (x : JSValue) :
    normalizeCoupon (normalizeCoupon x) = normalizeCoupon x := by
  simp [normalizeCoupon, jsGet_obj_cons, jsGet_obj_nil, jsNullish_jsNullish, jsNullish_str,
    safeString_str, toBool_bool, strictEqStr]

/-- The Category produced once from the payload `{name_en: 5}` at
locale `en`: the suffixed key wins for `name` and is returned raw, so
`name` is the number 5 while `name_en` is its stringification. -/
def categoryOnce : JSValue :=
  .obj [("id", .num (.val 0)), ("name", .num (.val 5)), ("slug", .str ""), ("icon", .str ""),
    ("image", .str ""), ("hero_images", .arr []), ("name_en", .str "5"), ("name_ar", .str ""),
    ("name_ku", .str ""), ("name_ku_sorani", .str ""), ("name_ku_badini", .str ""),
    ("parent_id", .null), ("products_count", .undef), ("children", .arr [])]

/-- The Category produced by re-normalizing `categoryOnce`: this time
the suffixed key holds the string "5", so `name` changes type. -/
def categoryTwice : JSValue :=
  .obj [("id", .num (.val 0)), ("name", .str "5"), ("slug", .str ""), ("icon", .str ""),
    ("image", .str ""), ("hero_images", .arr []), ("name_en", .str "5"), ("name_ar", .str ""),
    ("name_ku", .str ""), ("name_ku_sorani", .str ""), ("name_ku_badini", .str ""),
    ("parent_id", .null), ("products_count", .undef), ("children", .arr [])]

/-- C1 (amended): idempotence `N(N(x)) == N(x)` holds for every input
of the four pure scalar normalizers (`normalizeAddress`,
`normalizeOrder`, `normalizeUser`, `normalizeCoupon`), and fails for
the seven others — `normalizeProductVariant` (the `attributes` record
is not rebuilt from normalized output), `normalizeSlide`,
`normalizeCategory`, `normalizeProduct` (a non-string locale-suffixed
field is returned raw once and stringified the second time),
`normalizeVendor` (re-resolving an image URL drops its query string),
`normalizeCartItem` (inherits the variant failure), and
`normalizeCart` (a summary-supplied `items_count` is not reconstructed
from normalized output); the failures are exhibited at locale `en`
under the development environment. -/
theorem normalizer_idempotence_partial :
    (∀ x, normalizeAddress (normalizeAddress x) = normalizeAddress x) ∧
    (∀ x, normalizeOrder (normalizeOrder x) = normalizeOrder x) ∧
    (∀ x, normalizeUser (normalizeUser x) = normalizeUser x) ∧
    (∀ x, normalizeCoupon (normalizeCoupon x) = normalizeCoupon x) ∧
    normalizeProductVariant (normalizeProductVariant (.obj [("size", .str "L")])) ≠
      normalizeProductVariant (.obj [("size", .str "L")]) ∧
    (normalizeSlide devEnv "en" (.obj [("title_en", .num (.val 5))])).bind
        (normalizeSlide devEnv "en") ≠
      normalizeSlide devEnv "en" (.obj [("title_en", .num (.val 5))]) ∧
    (normalizeCategory devEnv "en" (.obj [("name_en", .num (.val 5))])).bind
        (normalizeCategory devEnv "en") ≠
      normalizeCategory devEnv "en" (.obj [("name_en", .num (.val 5))]) ∧
    (normalizeVendor devEnv (.obj [("logo", .str "a?b")])).bind (normalizeVendor devEnv) ≠
      normalizeVendor devEnv (.obj [("logo", .str "a?b")]) ∧
    (normalizeProduct devEnv "en" (.obj [("name_en", .num (.val 5))])).bind
        (normalizeProduct devEnv "en") ≠
      normalizeProduct devEnv "en" (.obj [("name_en", .num (.val 5))]) ∧
    (normalizeCartItem devEnv "en" (.obj [("variant", .obj [("size", .str "L")])])).bind
        (normalizeCartItem devEnv "en") ≠
      normalizeCartItem devEnv "en" (.obj [("variant", .obj [("size", .str "L")])]) ∧
    (normalizeCart devEnv "en" (.obj [("summary", .obj [("items_count", .num (.val 99))])])).bind
        (normalizeCart devEnv "en") ≠
      normalizeCart devEnv "en" (.obj [("summary", .obj [("items_count", .num (.val 99))])]) := by
  refine ⟨normalizeAddress_idem, normalizeOrder_idem, normalizeUser_idem, normalizeCoupon_idem,
    ?_, ?_, ?_, ?_, ?_, ?_, ?_⟩
  · intro h
    exact absurd
      (congrArg (fun c => match jsGet c "attributes" with | .obj l => l.length | _ => 0) h)
      (by with_unfolding_all decide)
  · intro h
    exact absurd
      (congrArg (fun r => match r with
        | Except.ok c => isStringValue (jsGet c "title")
        | Except.error _ => false) h)
      (by with_unfolding_all decide)
  · intro h
    have h1 : normalizeCategory devEnv "en" (.obj [("name_en", .num (.val 5))]) =
        .ok categoryOnce := by
      rw [normalizeCategory]
      with_unfolding_all rfl
    have h2 : normalizeCategory devEnv "en" categoryOnce = .ok categoryTwice := by
      rw [normalizeCategory]
      with_unfolding_all rfl
    rw [h1] at h
    simp only [Except.bind] at h
    rw [h2] at h
    simp [categoryOnce, categoryTwice] at h
  · intro h
    exact absurd
      (congrArg (fun r => match r with
        | Except.ok c => safeString (jsGet c "logo")
        | Except.error _ => "") h)
      (by with_unfolding_all decide)
  · intro h
    exact absurd
      (congrArg (fun r => match r with
        | Except.ok c => isStringValue (jsGet c "name")
        | Except.error _ => false) h)
      (by with_unfolding_all decide)
  · intro h
    exact absurd
      (congrArg (fun r => match r with
        | Except.ok c => (match jsGet (jsGet c "variant") "attributes" with
          | .obj l => l.length
          | _ => 0)
        | Except.error _ => 0) h)
      (by with_unfolding_all decide)
  · intro h
    exact absurd
      (congrArg (fun r => match r with
        | Except.ok c => safeNumber (jsGet c "items_count") 0
        | Except.error _ => 0) h)
      (by with_unfolding_all decide)

/-- C1 (counterexample): `normalizeProductVariant` is not idempotent —
on the payload `{size: "L"}` the first pass records `size` in the
`attributes` map, but the normalized output has no flat `size` field,
so a second pass empties `attributes`. -/
theorem normalizeProductVariant_not_idempotent :
    normalizeProductVariant (normalizeProductVariant (.obj [("size", .str "L")])) ≠
      normalizeProductVariant (.obj [("size", .str "L")]) := by
  intro h
  exact absurd
    (congrArg (fun c => match jsGet c "attributes" with | .obj l => l.length | _ => 0) h)
    (by with_unfolding_all decide)

/-- C2 (amended): every normalizer is a total function of the embedded
semantics whose successful result is a fully-populated canonical entity
(its key list is exactly the documented one), and an entirely missing
payload produces the documented all-defaults entity; however the six
normalizers with image-bearing fields propagate the TypeError that
`getImageUrl` raises on a truthy non-string image value, so they return
an error rather than an entity on such inputs (see the counterexample),
and id-like pass-through fields keep wrongly-typed non-null values
instead of degrading them. -/
theorem normalizers_total_fully_populated :
    (∀ x, jsKeys (normalizeProductVariant x) =
      some ["id", "name", "sku", "price", "compare_price", "stock", "attributes"]) ∧
    (∀ x, jsKeys (normalizeAddress x) =
      some ["id", "label", "recipient_name", "phone", "street_address", "city", "state",
        "postal_code", "country", "is_default", "full_address"]) ∧
    (∀ x, jsKeys (normalizeOrder x) =
      some ["id", "order_number", "status", "items", "subtotal", "total", "created_at"]) ∧
    (∀ x, jsKeys (normalizeUser x) =
      some ["id", "name", "email", "phone", "avatar", "is_vendor"]) ∧
    (∀ x, jsKeys (normalizeCoupon x) =
      some ["id", "code", "type", "value", "expires_at", "is_active"]) ∧
    (∀ env locale x c, normalizeSlide env locale x = .ok c → jsKeys c =
      some ["id", "title", "subtitle", "image", "title_en", "title_ar", "title_ku",
        "title_ku_sorani", "title_ku_badini", "subtitle_en", "subtitle_ar", "subtitle_ku",
        "subtitle_ku_sorani", "subtitle_ku_badini", "link_type", "link_value"]) ∧
    (∀ env locale x c, normalizeCategory env locale x = .ok c → jsKeys c =
      some ["id", "name", "slug", "icon", "image", "hero_images", "name_en", "name_ar",
        "name_ku", "name_ku_sorani", "name_ku_badini", "parent_id", "products_count",
        "children"]) ∧
    (∀ env x c, normalizeVendor env x = .ok c → jsKeys c =
      some ["id", "name", "slug", "description", "logo", "banner", "is_verified"]) ∧
    (∀ env locale x c, normalizeProduct env locale x = .ok c → jsKeys c =
      some ["id", "name", "slug", "description", "short_description", "name_en", "name_ar",
        "name_ku", "name_ku_sorani", "name_ku_badini", "description_en", "description_ar",
        "description_ku", "description_ku_sorani", "description_ku_badini", "price",
        "compare_price", "discount_percentage", "is_wishlisted", "status", "is_active",
        "images", "thumbnail", "category", "vendor", "variants", "in_stock",
        "average_rating", "reviews_count"]) ∧
    (∀ env locale x c, normalizeCartItem env locale x = .ok c → jsKeys c =
      some ["id", "product", "variant", "quantity", "unit_price", "subtotal"]) ∧
    (∀ env locale x c, normalizeCart env locale x = .ok c → jsKeys c =
      some ["items", "items_count", "subtotal", "total"]) ∧
    (∀ env locale, normalizeSlide env locale .undef = .ok slideDefault) ∧
    (∀ env locale, normalizeCategory env locale .undef = .ok categoryDefault) ∧
    (∀ env, normalizeVendor env .undef = .ok vendorDefault) ∧
    normalizeProductVariant .undef = variantDefault ∧
    (∀ env locale, normalizeProduct env locale .undef = .ok productDefault) ∧
    (∀ env locale, normalizeCartItem env locale .undef = .ok cartItemDefault) ∧
    (∀ env locale, normalizeCart env locale .undef = .ok cartDefault) ∧
    normalizeAddress .undef = addressDefault ∧
    normalizeOrder .undef = orderDefault ∧
    normalizeUser .undef = userDefault ∧
    normalizeCoupon .undef = couponDefault := by
  refine ⟨fun x => rfl, fun x => rfl, fun x => rfl, fun x => rfl, fun x => rfl,
    ?_, ?_, ?_, ?_, ?_, ?_, ?_, ?_, ?_, by with_unfolding_all rfl, ?_, ?_, ?_,
    by with_unfolding_all rfl, by with_unfolding_all rfl, by with_unfolding_all rfl,
    by with_unfolding_all rfl⟩
  · intro env locale x c h
    obtain ⟨image, _, hc⟩ := normalizeSlide_ok_shape env locale x c h
    subst hc
    rfl
  · intro env locale x c h
    obtain ⟨image, heroImages, children, hc⟩ := normalizeCategory_ok_shape env locale x c h
    subst hc
    rfl
  · intro env x c h
    obtain ⟨logo, banner, hc⟩ := normalizeVendor_ok_shape env x c h
    subst hc
    rfl
  · intro env locale x c h
    obtain ⟨images, thumbnail, category, vendor, _, _, hc⟩ :=
      normalizeProduct_ok_shape env locale x c h
    subst hc
    rfl
  · intro env locale x c h
    obtain ⟨product, _, hc⟩ := normalizeCartItem_ok_shape env locale x c h
    subst hc
    rfl
  · intro env locale x c h
    obtain ⟨items, _, hc⟩ := normalizeCart_ok_shape env locale x c h
    subst hc
    rfl
  · intro env locale
    rfl
  · intro env locale
    rw [normalizeCategory]
    with_unfolding_all rfl
  · intro env
    rfl
  · intro env locale
    rfl
  · intro env locale
    rfl
  · intro env locale
    rfl

/-- C2 (witness): the cart conjunct applied to a concrete empty payload. -/
theorem normalizers_total_fully_populated_witness :
    jsKeys cartDefault = some ["items", "items_count", "subtotal", "total"] :=
  normalizers_total_fully_populated.2.2.2.2.2.2.2.2.2.2.1 devEnv "en" (.obj []) cartDefault
    (by with_unfolding_all rfl)

/-- C2 (counterexample): normalizers can throw — a truthy non-string
`image` field reaches `path.startsWith` inside `getImageUrl`, which is
a TypeError at runtime, so `normalizeSlide` on `{image: 5}` fails
instead of returning an entity with a defaulted image. -/
theorem normalizeSlide_throws_on_numeric_image :
    normalizeSlide devEnv "en" (.obj [("image", .num (.val 5))]) = .error .typeError := by
  with_unfolding_all rfl

/-- C3 (amended): `normalizeProduct` normalizes `category` and `vendor`
only when the raw field is truthy and leaves the reference omitted
(`undefined`) otherwise, and `normalizeCartItem` normalizes `variant`
only when truthy (`null` otherwise) — but its `product` field is
always normalized, substituting `{}` for an absent raw product, so an
absent product yields the default Product stub rather than an omitted
reference. -/
theorem nested_reference_normalization :
    (∀ env locale product c, normalizeProduct env locale product = .ok c →
      (jsTruthy (jsGet product "category") = false → jsGet c "category" = .undef) ∧
      (jsTruthy (jsGet product "category") = true →
        ∃ cc, normalizeCategory env locale (jsGet product "category") = .ok cc ∧
          jsGet c "category" = cc) ∧
      (jsTruthy (jsGet product "vendor") = false → jsGet c "vendor" = .undef) ∧
      (jsTruthy (jsGet product "vendor") = true →
        ∃ vv, normalizeVendor env (jsGet product "vendor") = .ok vv ∧
          jsGet c "vendor" = vv)) ∧
    (∀ env locale item c, normalizeCartItem env locale item = .ok c →
      (jsTruthy (jsGet item "variant") = false → jsGet c "variant" = .null) ∧
      (jsTruthy (jsGet item "variant") = true →
        jsGet c "variant" = normalizeProductVariant (jsGet item "variant")) ∧
      (∃ p, normalizeProduct env locale (jsNullish (jsGet item "product") (.obj [])) = .ok p ∧
        jsGet c "product" = p)) := by
  constructor
  · intro env locale product c h
    obtain ⟨images, thumbnail, category, vendor, hcat, hven, hc⟩ :=
      normalizeProduct_ok_shape env locale product c h
    subst hc
    refine ⟨fun hf => ?_, fun ht => ?_, fun hf => ?_, fun ht => ?_⟩
    · rw [if_neg (by simp [hf])] at hcat
      have : JSValue.undef = category := by
        simpa [pure, Except.pure] using hcat
      simp [jsGet_obj_cons, jsGet_obj_nil, this.symm]
    · rw [if_pos ht] at hcat
      exact ⟨category, hcat, by simp [jsGet_obj_cons, jsGet_obj_nil]⟩
    · rw [if_neg (by simp [hf])] at hven
      have : JSValue.undef = vendor := by
        simpa [pure, Except.pure] using hven
      simp [jsGet_obj_cons, jsGet_obj_nil, this.symm]
    · rw [if_pos ht] at hven
      exact ⟨vendor, hven, by simp [jsGet_obj_cons, jsGet_obj_nil]⟩
  · intro env locale item c h
    obtain ⟨product, hp, hc⟩ := normalizeCartItem_ok_shape env locale item c h
    subst hc
    refine ⟨fun hf => ?_, fun ht => ?_, ⟨product, hp, by simp [jsGet_obj_cons, jsGet_obj_nil]⟩⟩
    · simp [jsGet_obj_cons, jsGet_obj_nil, hf]
    · simp [jsGet_obj_cons, jsGet_obj_nil, ht]

/-- C3 (witness): the cart-item conjunct applied to the empty payload;
its `product` is exactly the default Product stub. -/
theorem nested_reference_normalization_witness :
    jsGet cartItemDefault "product" = productDefault := by
  have h := (nested_reference_normalization.2 devEnv "en" (.obj []) cartItemDefault
    (by with_unfolding_all rfl)).2.2
  obtain ⟨p, hp, hcp⟩ := h
  have he : normalizeProduct devEnv "en"
      (jsNullish (jsGet (JSValue.obj []) "product") (.obj [])) = .ok productDefault := by
    with_unfolding_all rfl
  rw [he] at hp
  cases hp
  exact hcp

/-- C3 (counterexample): an absent raw `product` on a cart item does
not give an omitted reference — `normalizeCartItem` on `{}` embeds the
fully-defaulted Product stub. -/
theorem normalizeCartItem_product_stub :
    (normalizeCartItem devEnv "en" (.obj [])).map (fun c => jsGet c "product") =
      normalizeProduct devEnv "en" (.obj []) ∧
    normalizeProduct devEnv "en" (.obj []) ≠ .ok .undef := by
  constructor
  · with_unfolding_all rfl
  · intro h
    have he : normalizeProduct devEnv "en" (.obj []) = .ok productDefault := by
      with_unfolding_all rfl
    rw [he] at h
    simp [productDefault] at h

/-- C9 (confirmed): `normalizeVendor` coerces an explicitly present
(neither undefined nor null) `is_verified` with `toBool` and otherwise
derives it from `status === 'approved'`; `normalizeProduct` coerces a
defined `in_stock` with `toBool` and otherwise derives it as "some
normalized variant has stock > 0" (note the asymmetry: an explicit
`null` counts as absent for the vendor but as present for the
product). -/
theorem derived_boolean_fields :
    (∀ env vendor c, normalizeVendor env vendor = .ok c →
      (isNullish (jsGet vendor "is_verified") = true →
        jsGet c "is_verified" =
          .bool (strictEqStr (jsNullish (jsGet vendor "status") (.str "")) "approved")) ∧
      (isNullish (jsGet vendor "is_verified") = false →
        jsGet c "is_verified" =
          .bool (toBool (jsGet vendor "is_verified") "vendor.is_verified"))) ∧
    (∀ env locale product c, normalizeProduct env locale product = .ok c →
      (jsGet product "in_stock" = .undef →
        jsGet c "in_stock" = .bool
          (((unwrapCollection (jsGet product "variants")).map normalizeProductVariant).any
            variantStockPositive)) ∧
      (jsGet product "in_stock" ≠ .undef →
        jsGet c "in_stock" = .bool (toBool (jsGet product "in_stock") "product.in_stock"))) := by
  constructor
  · intro env vendor c h
    obtain ⟨logo, banner, hc⟩ := normalizeVendor_ok_shape env vendor c h
    subst hc
    refine ⟨fun hn => ?_, fun hp => ?_⟩ <;>
      cases hv : jsGet vendor "is_verified" <;>
        simp_all [jsGet_obj_cons, jsGet_obj_nil, isNullish]
  · intro env locale product c h
    obtain ⟨images, thumbnail, category, vendor, _, _, hc⟩ :=
      normalizeProduct_ok_shape env locale product c h
    subst hc
    refine ⟨fun hu => ?_, fun hd => ?_⟩ <;>
      cases hv : jsGet product "in_stock" <;>
        simp_all [jsGet_obj_cons, jsGet_obj_nil]

/-- C9 (witness): the vendor conjunct at `{status: "approved"}` (where
`is_verified` is absent and the derivation fires). -/
theorem derived_boolean_fields_witness :
    jsGet (.obj [("id", .num (.val 0)), ("name", .str ""), ("slug", .str ""),
      ("description", .str ""), ("logo", .str ""), ("banner", .str ""),
      ("is_verified", .bool true)]) "is_verified" =
      .bool (strictEqStr (jsNullish
        (jsGet (.obj [("status", JSValue.str "approved")]) "status") (.str "")) "approved") :=
  (derived_boolean_fields.1 devEnv (.obj [("status", .str "approved")])
    (.obj [("id", .num (.val 0)), ("name", .str ""), ("slug", .str ""),
      ("description", .str ""), ("logo", .str ""), ("banner", .str ""),
      ("is_verified", .bool true)])
    (by with_unfolding_all rfl)).1 (by with_unfolding_all rfl)

/-- Every normalized cart item carries a numeric quantity, so th
quantity fold of `normalizeCart` is the exact rational sum of the
items' quantities. -/
theorem sumQuantities_eq (items : List JSValue)
    (hq : ∀ y ∈ items, ∃ q : ℚ, jsGet y "quantity" = .num (.val q)) :
    sumQuantities items =
      .val (items.foldl (fun t y => t + safeNumber (jsGet y "quantity") 0) 0) := by
  have aux : ∀ (l : List JSValue), (∀ y ∈ l, ∃ q : ℚ, jsGet y "quantity" = .num (.val q)) →
      ∀ acc : ℚ,
        l.foldl (fun total item => jsnAdd total (quantityTerm item)) (.val acc) =
          .val (l.foldl (fun t y => t + safeNumber (jsGet y "quantity") 0) acc) := by
    intro l
    induction l with
    | nil => intro _ acc; rfl
    | cons y ys ih =>
      intro hql acc
      obtain ⟨q, hy⟩ := hql y (List.mem_cons_self y ys)
      have hterm : quantityTerm y = .val q := by
        rcases eq_or_ne q 0 with h0 | h0 <;>
          simp [quantityTerm, hy, jsOr, jsTruthy, h0]
      have hsafe : safeNumber (jsGet y "quantity") 0 = q := by
        simp [safeNumber, hy, jsToNumber]
      simp only [List.foldl, hterm, hsafe, jsnAdd]
      exact ih (fun z hz => hql z (List.mem_cons_of_mem y hz)) (acc + q)
  exact aux items hq 0

/-- C7 (amended): when the payload's summary does not supply an
`items_count` (the field is nullish on the summary, or the summary is
absent), the normalized cart's `items_count` equals the sum of its
items' quantity fields; `subtotal` and `total` are always strings (the
stringified summary values, decimal only when the payload's are). -/
theorem normalizeCart_items_count_invariant (env : ApiEnv) (locale : String)
    (payload c : JSValue) (hok : normalizeCart env locale payload = .ok c)
    (habsent : isNullish
      (jsGet (jsNullish (jsGet payload "summary") (.obj [])) "items_count") = true) :
    ∃ items, jsGet c "items" = .arr items ∧
      jsGet c "items_count" =
        .num (.val (items.foldl (fun t y => t + safeNumber (jsGet y "quantity") 0) 0)) ∧
      (∃ s, jsGet c "subtotal" = .str s) ∧ (∃ t, jsGet c "total" = .str t) := by
  obtain ⟨items, hitems, hc⟩ := normalizeCart_ok_shape env locale payload c hok
  subst hc
  have hq : ∀ y ∈ items, ∃ q : ℚ, jsGet y "quantity" = .num (.val q) := by
    intro y hy
    obtain ⟨raw, hraw⟩ := mapExcept_ok_mem (normalizeCartItem env locale) _ items hitems y hy
    obtain ⟨p, _, hcy⟩ := normalizeCartItem_ok_shape env locale raw y hraw
    subst hcy
    exact ⟨safeNumber (jsGet raw "quantity") 0, by simp [jsGet_obj_cons, jsGet_obj_nil]⟩
  refine ⟨items, by simp [jsGet_obj_cons, jsGet_obj_nil], ?_,
    ⟨safeString (jsNullish (jsGet (jsNullish (jsGet payload "summary") (.obj [])) "subtotal")
        (jsNullish (jsGet (jsNullish (jsGet payload "summary") (.obj [])) "total") (.str "0"))) "",
      by simp [jsGet_obj_cons, jsGet_obj_nil]⟩,
    ⟨safeString (jsNullish (jsGet (jsNullish (jsGet payload "summary") (.obj [])) "total")
        (jsNullish
          (jsNullish (jsGet (jsNullish (jsGet payload "summary") (.obj [])) "subtotal")
            (jsNullish (jsGet (jsNullish (jsGet payload "summary") (.obj [])) "total") (.str "0")))
          (.str "0"))) "",
      by simp [jsGet_obj_cons, jsGet_obj_nil]⟩⟩
  simp [jsGet_obj_cons, jsGet_obj_nil, jsNullish_of_nullish habsent,
    sumQuantities_eq items hq, safeNumber, jsToNumber]

/-- C7 (witness): the invariant applied to the empty payload. -/
theorem normalizeCart_items_count_invariant_witness :
    ∃ items, jsGet cartDefault "items" = .arr items ∧
      jsGet cartDefault "items_count" =
        .num (.val (items.foldl (fun t y => t + safeNumber (jsGet y "quantity") 0) 0)) ∧
      (∃ s, jsGet cartDefault "subtotal" = .str s) ∧
      (∃ t, jsGet cartDefault "total" = .str t) :=
  normalizeCart_items_count_invariant devEnv "en" (.obj []) cartDefault
    (by with_unfolding_all rfl) (by with_unfolding_all rfl)

/-- C7 (counterexample): a summary-supplied `items_count` overrides the
quantity sum — on `{summary: {items_count: 7}}` the normalized cart has
no items (so the quantity sum is 0) yet reports `items_count` 7. -/
theorem normalizeCart_summary_overrides_count :
    (normalizeCart devEnv "en"
        (.obj [("summary", .obj [("items_count", .num (.val 7))])])).map
        (fun c => (jsGet c "items", jsGet c "items_count")) =
      .ok (.arr [], .num (.val 7)) ∧
    (7 : ℚ) ≠ ([] : List JSValue).foldl (fun t y => t + safeNumber (jsGet y "quantity") 0) 0 := by
  constructor
  · with_unfolding_all rfl
  · norm_num [List.foldl]

/-- C4 (confirmed): when the confirmed update-quantity (or remove-item)
call fails in an authenticated session and the rollback fetch succeeds,
the displayed cart is the freshly fetched authoritative cart — a
wholesale replacement, not a patch of the optimistic value — and the
server's error message (or the default text) is surfaced in an
alert. -/
theorem update_failure_full_resync (cart authoritative : CCart)
    (itemId currentQuantity change : ℚ) (msg : String) (h : 1 ≤ currentQuantity + change) :
    (handleUpdateQuantity cart itemId currentQuantity change true (.error msg)
        (.ok authoritative)).final = authoritative ∧
    (handleUpdateQuantity cart itemId currentQuantity change true (.error msg)
        (.ok authoritative)).alert = some (alertMessage msg "Failed to update quantity") ∧
    (handleRemoveItem cart itemId true (.error msg) (.ok authoritative)).final =
      authoritative ∧
    (handleRemoveItem cart itemId true (.error msg) (.ok authoritative)).alert =
      some (alertMessage msg "Failed to remove item") := by
  have hn : ¬ (currentQuantity + change < 1) := not_lt.mpr h
  simp [handleUpdateQuantity, handleRemoveItem, hn, fetchCartResult]

/-- C4 (witness): a failing update on a concrete one-item cart resyncs
to the concretely fetched authoritative cart. -/
theorem update_failure_full_resync_witness :
    (1 : ℚ) ≤ 2 + 1 ∧
    (handleUpdateQuantity ⟨[⟨1, 2, "10.00", "20.00"⟩], 2, "20.00", "20.00"⟩ 1 2 1 true
        (.error "stock unavailable") (.ok ⟨[⟨1, 2, "10.00", "20.00"⟩], 2, "20.00", "20.00"⟩)).final =
      ⟨[⟨1, 2, "10.00", "20.00"⟩], 2, "20.00", "20.00"⟩ :=
  ⟨by norm_num,
    (update_failure_full_resync ⟨[⟨1, 2, "10.00", "20.00"⟩], 2, "20.00", "20.00"⟩
      ⟨[⟨1, 2, "10.00", "20.00"⟩], 2, "20.00", "20.00"⟩ 1 2 1 "stock unavailable"
      (by norm_num)).1⟩

/-- C5 (confirmed): with a candidate quantity of at least 1 the
mutation is applied synchronously before the network settles — the
displayed optimistic cart maps the item to its new quantity with
subtotal `round2(unit_price × quantity)` and recomputes
items_count/subtotal/total from the full updated item list (whatever
the pending server result turns out to be). -/
theorem optimistic_apply_synchronous (cart : CCart) (itemId currentQuantity change : ℚ)
    (hasAuth : Bool) (serverResult refetch : Except String CCart)
    (h : 1 ≤ currentQuantity + change) :
    (handleUpdateQuantity cart itemId currentQuantity change hasAuth serverResult
        refetch).optimistic.items =
      cart.items.map (fun item =>
        if item.id ≠ itemId then item
        else { item with
          quantity := currentQuantity + change
          subtotal := toFixed2
            (.val (safeUnitPrice item.unit_price * (currentQuantity + change))) }) ∧
    (handleUpdateQuantity cart itemId currentQuantity change hasAuth serverResult
        refetch).optimistic.items_count =
      (handleUpdateQuantity cart itemId currentQuantity change hasAuth serverResult
        refetch).optimistic.items.foldl (fun total item => total + item.quantity) 0 ∧
    (handleUpdateQuantity cart itemId currentQuantity change hasAuth serverResult
        refetch).optimistic.subtotal =
      toFixed2 (.val ((handleUpdateQuantity cart itemId currentQuantity change hasAuth
        serverResult refetch).optimistic.items.foldl
          (fun total item => total + safeUnitPrice item.unit_price * item.quantity) 0)) ∧
    (handleUpdateQuantity cart itemId currentQuantity change hasAuth serverResult
        refetch).optimistic.total =
      (handleUpdateQuantity cart itemId currentQuantity change hasAuth serverResult
        refetch).optimistic.subtotal := by
  have hn : ¬ (currentQuantity + change < 1) := not_lt.mpr h
  cases serverResult <;>
    simp [handleUpdateQuantity, hn, updateCartState, calculateCartTotals]

/-- C5 (witness): the cart item `{unit_price: "10.00", quantity: 2}`
under `changeQuantity(+1)` displays subtotal `"30.00"` locally while
the server call is still failing. -/
theorem optimistic_apply_synchronous_witness :
    (1 : ℚ) ≤ 2 + 1 ∧
    (handleUpdateQuantity ⟨[⟨1, 2, "10.00", "20.00"⟩], 2, "20.00", "20.00"⟩ 1 2 1 true
        (.error "network down") (.ok ⟨[], 0, "0.00", "0.00"⟩)).optimistic.items =
      [⟨1, 3, "10.00", "30.00"⟩] :=
  ⟨by norm_num,
    ((optimistic_apply_synchronous ⟨[⟨1, 2, "10.00", "20.00"⟩], 2, "20.00", "20.00"⟩ 1 2 1 true
      (.error "network down") (.ok ⟨[], 0, "0.00", "0.00"⟩) (by norm_num)).1).trans
      (by with_unfolding_all decide)⟩

/-- C8 (amended): `applyCoupon` is not optimistic — the displayed cart
is unchanged until the round trip settles, and a failure leaves it
untouched; but on success the displayed cart is the freshly fetched
authoritative cart of the concurrent `GET /cart` with only its
`subtotal`/`total` overridden by the coupon response, so the previously
displayed items are replaced by the fetched ones rather than left
untouched. -/
theorem applyCoupon_not_optimistic (current fetched : CCart) (code : String)
    (couponBody : JSValue) (msg : String) (h : jsTrim code ≠ "") :
    (handleApplyCoupon current code
        (.ok (applyCouponEndpoint fetched couponBody))).duringRequest = current ∧
    (handleApplyCoupon current code
        (.ok (applyCouponEndpoint fetched couponBody))).final.items = fetched.items ∧
    (handleApplyCoupon current code
        (.ok (applyCouponEndpoint fetched couponBody))).final.subtotal =
      jsToString (jsNullish (jsGet (jsNullish couponBody (.obj [])) "subtotal")
        (.str fetched.subtotal)) ∧
    (handleApplyCoupon current code
        (.ok (applyCouponEndpoint fetched couponBody))).final.total =
      jsToString (jsNullish (jsGet (jsNullish couponBody (.obj [])) "total")
        (.str fetched.total)) ∧
    (handleApplyCoupon current code (.error msg)).duringRequest = current ∧
    (handleApplyCoupon current code (.error msg)).final = current := by
  simp [handleApplyCoupon, h, applyCouponEndpoint]

/-- C8 (witness): a concrete successful coupon application keeps the
pre-request cart during the round trip and merges the returned totals
over the fetched cart. -/
theorem applyCoupon_not_optimistic_witness :
    jsTrim "SAVE10" ≠ "" ∧
    (handleApplyCoupon ⟨[], 0, "0.00", "0.00"⟩ "SAVE10"
        (.ok (applyCouponEndpoint ⟨[⟨7, 1, "5.00", "5.00"⟩], 1, "5.00", "5.00"⟩
          (.obj [("subtotal", .str "4.00"), ("total", .str "4.00")])))).duringRequest =
      ⟨[], 0, "0.00", "0.00"⟩ :=
  ⟨by with_unfolding_all decide,
    (applyCoupon_not_optimistic ⟨[], 0, "0.00", "0.00"⟩
      ⟨[⟨7, 1, "5.00", "5.00"⟩], 1, "5.00", "5.00"⟩ "SAVE10"
      (.obj [("subtotal", .str "4.00"), ("total", .str "4.00")]) "unused"
      (by with_unfolding_all decide)).1⟩

/-- C8 (counterexample): the merge target is the freshly fetched item
list, not the currently displayed one — applying a coupon while the
displayed cart is empty ends with the fetched one-item list on screen,
so the claim's "leaving the cart's items untouched" fails. -/
theorem applyCoupon_replaces_items :
    (handleApplyCoupon ⟨[], 0, "0.00", "0.00"⟩ "SAVE10"
        (.ok (applyCouponEndpoint ⟨[⟨7, 1, "5.00", "5.00"⟩], 1, "5.00", "5.00"⟩
          (.obj [("subtotal", .str "4.00"), ("total", .str "4.00")])))).final.items =
      [⟨7, 1, "5.00", "5.00"⟩] ∧
    (handleApplyCoupon ⟨[], 0, "0.00", "0.00"⟩ "SAVE10"
        (.ok (applyCouponEndpoint ⟨[⟨7, 1, "5.00", "5.00"⟩], 1, "5.00", "5.00"⟩
          (.obj [("subtotal", .str "4.00"), ("total", .str "4.00")])))).final.items ≠
      ([] : List CItem) := by
  constructor
  · with_unfolding_all decide
  · with_unfolding_all decide

/-- The toBoolean truth table as the specification words it, clause by
clause: booleans pass through; the number 1 and the string "1" map to
true, 0 and "0" to false; any other string is trimmed and lowercased
and mapped through the keyword sets, any remaining non-empty string
mapping to false; null and undefined map to false; everything else maps
to its JS truthiness (NaN falsy, infinities truthy, arrays and objects
truthy).  Written from the specification text, to be compared with the
source-derived `toBool`. -/
def specToBoolean (value : JSValue) : Bool :=
  match value with
  | .bool b => b
  | .num (.val q) => if q = 1 then true else if q = 0 then false else q != 0
  | .str s =>
    if s = "1" then true
    else if s = "0" then false
    else
      let normalized := asciiLowercase (jsTrim s)
      if normalized = "true" ∨ normalized = "yes" ∨ normalized = "on" then true
      else if normalized = "false" ∨ normalized = "no" ∨ normalized = "off" ∨
          normalized = "" then false
      else false
  | .null => false
  | .undef => false
  | .num .nan => false
  | .num .inf => true
  | .num .negInf => true
  | .arr _ => true
  | .obj _ => true

/-- C10 (confirmed): `toBool` agrees with the specification's truth
table on every input and label, and realizes the quoted instances
`toBool(1)=true`, `toBool("0")=false`, `toBool("yes")=true`,
`toBool("maybe")=false`, `toBool(undefined)=false`. -/
theorem toBool_truth_table :
    (∀ v l, toBool v l = specToBoolean v) ∧
    toBool (.num (.val 1)) = true ∧
    toBool (.str "0") = false ∧
    toBool (.str "yes") = true ∧
    toBool (.str "maybe") = false ∧
    toBool .undef = false := by
  refine ⟨?_, rfl, rfl, by with_unfolding_all rfl, by with_unfolding_all rfl, rfl⟩
  intro v l
  cases v with
  | num n => cases n <;> rfl
  | _ => rfl

/-! ### Localized-field resolution (C6) -/

theorem readLocalizedValue_str_ne {s : String} (h : s ≠ "") (locale : String) :
    readLocalizedValue (.str s) locale = .str s := by
  simp [readLocalizedValue, jsTruthy, h]

theorem readLocalizedValue_str_empty (locale : String) :
    readLocalizedValue (.str "") locale = .undef := rfl

theorem readLocalizedValue_undef (locale : String) :
    readLocalizedValue .undef locale = .undef := rfl

theorem readLocalizedValue_null (locale : String) :
    readLocalizedValue .null locale = .undef := rfl

theorem readLocalizedValue_bool (b : Bool) (locale : String) :
    readLocalizedValue (.bool b) locale = .undef := by cases b <;> rfl

theorem readLocalizedValue_num (n : JSNum) (locale : String) :
    readLocalizedValue (.num n) locale = .undef := by
  cases n with
  | val q =>
    by_cases h : q = 0
    · simp [readLocalizedValue, jsTruthy, h]
    · simp [readLocalizedValue, jsTruthy, h]
  | _ => rfl

theorem readLocalizedValue_obj (fields : List (String × JSValue)) (locale : String) :
    readLocalizedValue (.obj fields) locale =
      (if jsTruthy (jsGet (.obj fields) locale) = true then jsGet (.obj fields) locale
       else if jsTruthy (jsGet (.obj fields) "en") = true then jsGet (.obj fields) "en"
       else .undef) := rfl

theorem readLocalizedValue_arr (elems : List JSValue) (locale : String) :
    readLocalizedValue (.arr elems) locale =
      (if jsTruthy (jsGet (.arr elems) locale) = true then jsGet (.arr elems) locale
       else if jsTruthy (jsGet (.arr elems) "en") = true then jsGet (.arr elems) "en"
       else .undef) := rfl

theorem jsTruthy_str_ne {s : String} (h : s ≠ "") : jsTruthy (.str s) = true := by
  simp [jsTruthy, h]

theorem jsTruthy_undef : jsTruthy .undef = false := rfl

theorem getLocalizedField_eq_spec (locale : String) (source : JSValue) (field : String) (fallback : String) :
    getLocalizedField locale source field fallback =
      specLocalizedField locale source field fallback := by
  by_cases hs : jsTruthy source = true
  · simp only [getLocalizedField, specLocalizedField, hs, Bool.not_true, Bool.false_eq_true,
      if_false]
    by_cases h1 : jsTruthy (jsGet source (field ++ "_" ++ locale)) = true
    · simp [h1]
    · simp only [h1, Bool.false_eq_true, if_false]
      cases hfv : jsGet source field with
      | str s =>
        by_cases hse : s = ""
        · subst hse
          simp only [readLocalizedValue_str_empty, jsTruthy_undef, Bool.false_eq_true, if_false]
          by_cases htr : jsTruthy (jsOr (jsGet source "translations") (jsGet source "i18n")) =
                true ∧
              jsTruthy (jsGet (jsOr (jsGet source "translations") (jsGet source "i18n"))
                locale) = true ∧
              jsTruthy (jsGet (jsGet (jsOr (jsGet source "translations") (jsGet source "i18n"))
                locale) field) = true
          · simp only [if_pos htr]
            simp
          · simp only [if_neg htr]
            simp
        · simp [readLocalizedValue_str_ne hse, jsTruthy_str_ne hse, hse]
      | obj fields =>
        rw [readLocalizedValue_obj]
        by_cases hl : jsTruthy (jsGet (JSValue.obj fields) locale) = true
        · simp [hl]
        · simp only [hl, Bool.false_eq_true, if_false]
          by_cases he : jsTruthy (jsGet (JSValue.obj fields) "en") = true
          · simp [hl, he]
          · simp only [he, Bool.false_eq_true, if_false, jsTruthy_undef, Option.or]
            by_cases htr : jsTruthy (jsOr (jsGet source "translations") (jsGet source "i18n")) =
                  true ∧
                jsTruthy (jsGet (jsOr (jsGet source "translations") (jsGet source "i18n"))
                  locale) = true ∧
                jsTruthy (jsGet (jsGet (jsOr (jsGet source "translations")
                  (jsGet source "i18n")) locale) field) = true
            · simp only [if_pos htr]
              simp
            · simp only [if_neg htr]
              simp
      | arr elems =>
        rw [readLocalizedValue_arr]
        by_cases hl : jsTruthy (jsGet (JSValue.arr elems) locale) = true
        · simp [hl]
        · simp only [hl, Bool.false_eq_true, if_false]
          by_cases he : jsTruthy (jsGet (JSValue.arr elems) "en") = true
          · simp [hl, he]
          · simp only [he, Bool.false_eq_true, if_false, jsTruthy_undef, Option.or]
            by_cases htr : jsTruthy (jsOr (jsGet source "translations") (jsGet source "i18n")) =
                  true ∧
                jsTruthy (jsGet (jsOr (jsGet source "translations") (jsGet source "i18n"))
                  locale) = true ∧
                jsTruthy (jsGet (jsGet (jsOr (jsGet source "translations")
                  (jsGet source "i18n")) locale) field) = true
            · simp only [if_pos htr]
              simp
            · simp only [if_neg htr]
              simp
      | undef =>
        simp only [readLocalizedValue_undef, jsTruthy_undef, Bool.false_eq_true, if_false, Option.or]
        by_cases htr : jsTruthy (jsOr (jsGet source "translations") (jsGet source "i18n")) =
              true ∧
            jsTruthy (jsGet (jsOr (jsGet source "translations") (jsGet source "i18n"))
              locale) = true ∧
            jsTruthy (jsGet (jsGet (jsOr (jsGet source "translations") (jsGet source "i18n"))
              locale) field) = true
        · simp only [if_pos htr]
          simp
        · simp only [if_neg htr]
          simp
      | null =>
        simp only [readLocalizedValue_null, jsTruthy_undef, Bool.false_eq_true, if_false, Option.or]
        by_cases htr : jsTruthy (jsOr (jsGet source "translations") (jsGet source "i18n")) =
              true ∧
            jsTruthy (jsGet (jsOr (jsGet source "translations") (jsGet source "i18n"))
              locale) = true ∧
            jsTruthy (jsGet (jsGet (jsOr (jsGet source "translations") (jsGet source "i18n"))
              locale) field) = true
        · simp only [if_pos htr]
          simp
        · simp only [if_neg htr]
          simp
      | bool b =>
        simp only [readLocalizedValue_bool, jsTruthy_undef, Bool.false_eq_true, if_false, Option.or]
        by_cases htr : jsTruthy (jsOr (jsGet source "translations") (jsGet source "i18n")) =
              true ∧
            jsTruthy (jsGet (jsOr (jsGet source "translations") (jsGet source "i18n"))
              locale) = true ∧
            jsTruthy (jsGet (jsGet (jsOr (jsGet source "translations") (jsGet source "i18n"))
              locale) field) = true
        · simp only [if_pos htr]
          simp
        · simp only [if_neg htr]
          simp
      | num n =>
        simp only [readLocalizedValue_num, jsTruthy_undef, Bool.false_eq_true, if_false, Option.or]
        by_cases htr : jsTruthy (jsOr (jsGet source "translations") (jsGet source "i18n")) =
              true ∧
            jsTruthy (jsGet (jsOr (jsGet source "translations") (jsGet source "i18n"))
              locale) = true ∧
            jsTruthy (jsGet (jsGet (jsOr (jsGet source "translations") (jsGet source "i18n"))
              locale) field) = true
        · simp only [if_pos htr]
          simp
        · simp only [if_neg htr]
          simp
  · have hns : ∀ k, jsGet source k = .undef := by
      intro k
      cases source <;> simp_all [jsTruthy, jsGet]
    simp [getLocalizedField, specLocalizedField, hs, hns, readLocalizedValue, jsTruthy, jsOr]

/-- C6 (confirmed): `getLocalizedField` resolves exactly in the
specification's six-step order — flat suffixed key, truthy string
field, locale-keyed map (current locale then `en`), nested
`translations`/`i18n` table, plain-string re-check, fallback — and on
`{name: "A", name_fr: "B"}` yields "B" under locale `fr` and "A" under
locale `de`, for every fallback argument. -/
theorem getLocalizedField_resolution_order :
    (∀ locale source field fallback,
      getLocalizedField locale source field fallback =
        specLocalizedField locale source field fallback) ∧
    (∀ fb, getLocalizedField "fr" (.obj [("name", .str "A"), ("name_fr", .str "B")]) "name" fb =
      .str "B") ∧
    (∀ fb, getLocalizedField "de" (.obj [("name", .str "A"), ("name_fr", .str "B")]) "name" fb =
      .str "A") :=
  ⟨getLocalizedField_eq_spec, fun fb => by with_unfolding_all rfl,
    fun fb => by with_unfolding_all rfl⟩

end Tonas
